import Mathlib

/-!
Verification development for the ProduSoft frontend agent-orchestration route
(`frontend/app/api/langchain/assistant/route.ts`).

The route's pure logic (catalogue, argument schemas, plan executor, checklist
precondition rule, context builder, role normalization, JSON extraction) is
embedded shallowly below.  The external workflow service (spec section 6) is
modelled by an explicit state `RefState` carrying the order store, a failure
injection table, and a trace of remote calls; every remote call a handler makes
is recorded in the trace.  JavaScript `Date` parsing is external, so
`createdAt` is modelled directly as the epoch-millisecond value that
`new Date(x).getTime()` would return; `JSON.parse` is likewise external and is
passed in as a parameter where needed.  String upper/lower casing is modelled
on ASCII via `Char.toUpper`/`Char.toLower`.
-/

namespace ProduSoft

/-- `StageType` from `types/api.ts`. -/
inductive StageType where
  | PREPARATION
  | ASSEMBLY
  | DELIVERY
deriving DecidableEq, Repr

/-- `StageState` from `types/api.ts`. -/
inductive StageState where
  | BLOCKED
  | PENDING
  | IN_PROGRESS
  | COMPLETED
  | EXCEPTION
  | SKIPPED
  | REWORK
deriving DecidableEq, Repr

/-- `ChecklistItem` from `types/api.ts`. -/
structure ChecklistItem where
  id : String
  label : String
  required : Bool
  completed : Bool
deriving DecidableEq, Repr

/-- `OrderStageStatus` from `types/api.ts` (fields the route reads). -/
structure OrderStageStatus where
  stage : StageType
  state : StageState
  assignee : Option String
  serviceTimeMinutes : Option Int
  notes : Option String
  exceptionReason : Option String
  checklist : List ChecklistItem
deriving DecidableEq, Repr

/-- `OrderResponse` from `types/api.ts` (fields the route reads).
`createdAt` is the epoch-millisecond timestamp `new Date(createdAt).getTime()`
would produce; `none` models an absent/empty (falsy) date string. -/
structure OrderResponse where
  id : Int
  orderNumber : String
  priority : Option Int
  currentStage : StageType
  overallState : StageState
  createdAt : Option Int
  notes : Option String
  stages : List OrderStageStatus
deriving DecidableEq, Repr

/-- The `Role` union type of the route. -/
inductive Role where
  | OPERATOR
  | SUPERVISOR
deriving DecidableEq, Repr

/-- `STAGE_ORDER` constant. -/
def STAGE_ORDER : List StageType := [.PREPARATION, .ASSEMBLY, .DELIVERY]

/-- `MAX_CONTEXT_ORDERS` constant. -/
def MAX_CONTEXT_ORDERS : Nat := 10

/-- `ACTION_NAMES` constant. -/
def ACTION_NAMES : List String :=
  [ "list_orders"
  , "get_order_details"
  , "list_stage_checklist"
  , "create_order"
  , "update_order_priority"
  , "claim_stage"
  , "update_stage_checklist"
  , "complete_stage"
  , "flag_stage_exception"
  , "approve_stage_skip" ]

/-- The canonical (upper-case) wire string of a stage, as in `z.enum(STAGE_ORDER)`. -/
def stageTypeString : StageType → String
  | .PREPARATION => "PREPARATION"
  | .ASSEMBLY => "ASSEMBLY"
  | .DELIVERY => "DELIVERY"

/-- `stage.toLowerCase()` for the digest rendering. -/
def stageTypeLower : StageType → String
  | .PREPARATION => "preparation"
  | .ASSEMBLY => "assembly"
  | .DELIVERY => "delivery"

/-- The canonical wire string of a stage state, as in `z.enum(STAGE_STATES)`. -/
def stageStateString : StageState → String
  | .BLOCKED => "BLOCKED"
  | .PENDING => "PENDING"
  | .IN_PROGRESS => "IN_PROGRESS"
  | .COMPLETED => "COMPLETED"
  | .EXCEPTION => "EXCEPTION"
  | .SKIPPED => "SKIPPED"
  | .REWORK => "REWORK"

/-- `state.toLowerCase()` for the digest rendering. -/
def stageStateLower : StageState → String
  | .BLOCKED => "blocked"
  | .PENDING => "pending"
  | .IN_PROGRESS => "in_progress"
  | .COMPLETED => "completed"
  | .EXCEPTION => "exception"
  | .SKIPPED => "skipped"
  | .REWORK => "rework"

/-- The canonical wire string of a role. -/
def roleString : Role → String
  | .OPERATOR => "OPERATOR"
  | .SUPERVISOR => "SUPERVISOR"

/-- `STAGE_RANK` lookup / `rankStage` (every `StageType` is in the map, so the
`Number.MAX_SAFE_INTEGER` fallback is unreachable). -/
def rankStage : StageType → Nat
  | .PREPARATION => 0
  | .ASSEMBLY => 1
  | .DELIVERY => 2

/-- JSON-like values: the loosely-typed argument bags handed to the schemas.
JSON numbers are modelled as integers (the zod `.int()` refinements in this
route are the only consumers of fractionality, and they only narrow). -/
inductive JValue where
  | null
  | bool (b : Bool)
  | num (n : Int)
  | str (s : String)
  | arr (xs : List JValue)
  | obj (fields : List (String × JValue))

/-- Field lookup on a JSON object (objects produced by `JSON.parse` have
unique keys, and `List.lookup` returns the first binding). -/
def JValue.getField (j : JValue) (k : String) : Option JValue :=
  match j with
  | .obj fields => fields.lookup k
  | _ => none

/-! ### Argument schemas

Each zod schema of the route is embedded as a structure together with a
validation function `JValue → Except String _` mirroring `schema.safeParse`
(diagnostic strings model the zod issue text). -/

/-- `z.infer<typeof ListOrdersSchema>`. -/
structure ListOrdersArgs where
  limit : Option Int
  stage : Option StageType
  states : Option (List StageState)
deriving DecidableEq, Repr

/-- `z.infer<typeof GetOrderDetailsSchema>`. -/
structure GetOrderDetailsArgs where
  orderId : Int
deriving DecidableEq, Repr

/-- `z.infer<typeof CreateOrderSchema>`. -/
structure CreateOrderArgs where
  orderNumber : String
  priority : Option Int
  notes : Option String
deriving DecidableEq, Repr

/-- `z.infer<typeof UpdatePrioritySchema>`. -/
structure UpdatePriorityArgs where
  orderId : Int
  priority : Int
deriving DecidableEq, Repr

/-- `z.infer<typeof ClaimStageSchema>`. -/
structure ClaimStageArgs where
  orderId : Int
  stage : StageType
  assignee : Option String
deriving DecidableEq, Repr

/-- `z.infer<typeof ListChecklistSchema>`. -/
structure ListChecklistArgs where
  orderId : Int
  stage : StageType
deriving DecidableEq, Repr

/-- `z.infer<typeof CompleteStageSchema>`. -/
structure CompleteStageArgs where
  orderId : Int
  stage : StageType
  serviceTimeMinutes : Option Int
  notes : Option String
deriving DecidableEq, Repr

/-- One element of `UpdateChecklistSchema`'s `tasks` array. -/
structure ChecklistTaskArg where
  taskId : String
  completed : Bool
deriving DecidableEq, Repr

/-- `z.infer<typeof UpdateChecklistSchema>`. -/
structure UpdateChecklistArgs where
  orderId : Int
  stage : StageType
  tasks : List ChecklistTaskArg
deriving DecidableEq, Repr

/-- `z.infer<typeof FlagExceptionSchema>`. -/
structure FlagExceptionArgs where
  orderId : Int
  stage : StageType
  exceptionReason : String
  notes : Option String
deriving DecidableEq, Repr

/-- `z.infer<typeof ApproveSkipSchema>`. -/
structure ApproveSkipArgs where
  orderId : Int
  stage : StageType
  notes : Option String
deriving DecidableEq, Repr

/-- `z.object(...)` rejects anything that is not a plain object. -/
def reqObj (j : JValue) : Except String Unit :=
  match j with
  | .obj _ => .ok ()
  | _ => .error "Expected object"

/-- Required object field: missing keys are a validation error. -/
def reqField (j : JValue) (k : String) (v : JValue → Except String α) :
    Except String α :=
  match j.getField k with
  | none => .error (k ++ ": Required")
  | some x => v x

/-- `.optional()` field: absent keys validate to `none`; present values must
satisfy the inner validator (in particular, `null` is rejected). -/
def optField (j : JValue) (k : String) (v : JValue → Except String α) :
    Except String (Option α) :=
  match j.getField k with
  | none => .ok none
  | some x => (v x).map some

/-- `z.number().int().min(lo).max(hi)` (integrality is intrinsic here because
JSON numbers are modelled as integers). -/
def vIntRange (k : String) (lo hi : Int) (x : JValue) : Except String Int :=
  match x with
  | .num n => if lo ≤ n ∧ n ≤ hi then .ok n else .error (k ++ ": number out of range")
  | _ => .error (k ++ ": expected number")

/-- `z.number().int().positive()`. -/
def vPosInt (k : String) (x : JValue) : Except String Int :=
  match x with
  | .num n => if 0 < n then .ok n else .error (k ++ ": expected positive number")
  | _ => .error (k ++ ": expected number")

/-- `z.string().min(lo).max(hi)` (length in characters). -/
def vStrLen (k : String) (lo hi : Nat) (x : JValue) : Except String String :=
  match x with
  | .str s => if lo ≤ s.length ∧ s.length ≤ hi then .ok s
              else .error (k ++ ": string length out of range")
  | _ => .error (k ++ ": expected string")

/-- `z.string().max(hi)`. -/
def vStrMax (k : String) (hi : Nat) (x : JValue) : Except String String :=
  vStrLen k 0 hi x

/-- `z.string().min(lo)` with no upper bound. -/
def vStrMin (k : String) (lo : Nat) (x : JValue) : Except String String :=
  match x with
  | .str s => if lo ≤ s.length then .ok s
              else .error (k ++ ": string length out of range")
  | _ => .error (k ++ ": expected string")

/-- `z.enum(STAGE_ORDER)`. -/
def vStage (k : String) (x : JValue) : Except String StageType :=
  match x with
  | .str s =>
    if s = "PREPARATION" then .ok .PREPARATION
    else if s = "ASSEMBLY" then .ok .ASSEMBLY
    else if s = "DELIVERY" then .ok .DELIVERY
    else .error (k ++ ": invalid enum value")
  | _ => .error (k ++ ": expected string")

/-- `z.enum(STAGE_STATES)`. -/
def vState (k : String) (x : JValue) : Except String StageState :=
  match x with
  | .str s =>
    if s = "BLOCKED" then .ok .BLOCKED
    else if s = "PENDING" then .ok .PENDING
    else if s = "IN_PROGRESS" then .ok .IN_PROGRESS
    else if s = "COMPLETED" then .ok .COMPLETED
    else if s = "EXCEPTION" then .ok .EXCEPTION
    else if s = "SKIPPED" then .ok .SKIPPED
    else if s = "REWORK" then .ok .REWORK
    else .error (k ++ ": invalid enum value")
  | _ => .error (k ++ ": expected string")

/-- `z.boolean()`. -/
def vBool (k : String) (x : JValue) : Except String Bool :=
  match x with
  | .bool b => .ok b
  | _ => .error (k ++ ": expected boolean")

/-- Elementwise validation of a list, stopping at the first failure. -/
def mapExcept (elem : JValue → Except String α) : List JValue → Except String (List α)
  | [] => .ok []
  | x :: xs => do
    let y ← elem x
    let ys ← mapExcept elem xs
    return y :: ys

/-- `z.array(elem)` with an optional `.min(lo)` length bound. -/
def vArrOf (k : String) (lo : Nat) (elem : JValue → Except String α) (x : JValue) :
    Except String (List α) :=
  match x with
  | .arr xs =>
    if lo ≤ xs.length then mapExcept elem xs
    else .error (k ++ ": array too short")
  | _ => .error (k ++ ": expected array")

/-- `ListOrdersSchema.safeParse`. -/
def parseListOrders (j : JValue) : Except String ListOrdersArgs := do
  let _ ← reqObj j
  let limit ← optField j "limit" (vIntRange "limit" 1 25)
  let stage ← optField j "stage" (vStage "stage")
  let states ← optField j "states" (vArrOf "states" 0 (vState "states"))
  return ⟨limit, stage, states⟩

/-- `GetOrderDetailsSchema.safeParse`. -/
def parseGetOrderDetails (j : JValue) : Except String GetOrderDetailsArgs := do
  let _ ← reqObj j
  let orderId ← reqField j "orderId" (vPosInt "orderId")
  return ⟨orderId⟩

/-- `CreateOrderSchema.safeParse`. -/
def parseCreateOrder (j : JValue) : Except String CreateOrderArgs := do
  let _ ← reqObj j
  let orderNumber ← reqField j "orderNumber" (vStrLen "orderNumber" 3 64)
  let priority ← optField j "priority" (vIntRange "priority" 0 999)
  let notes ← optField j "notes" (vStrMax "notes" 2000)
  return ⟨orderNumber, priority, notes⟩

/-- `UpdatePrioritySchema.safeParse`. -/
def parseUpdatePriority (j : JValue) : Except String UpdatePriorityArgs := do
  let _ ← reqObj j
  let orderId ← reqField j "orderId" (vPosInt "orderId")
  let priority ← reqField j "priority" (vIntRange "priority" 0 999)
  return ⟨orderId, priority⟩

/-- `ClaimStageSchema.safeParse`. -/
def parseClaimStage (j : JValue) : Except String ClaimStageArgs := do
  let _ ← reqObj j
  let orderId ← reqField j "orderId" (vPosInt "orderId")
  let stage ← reqField j "stage" (vStage "stage")
  let assignee ← optField j "assignee" (vStrLen "assignee" 2 64)
  return ⟨orderId, stage, assignee⟩

/-- `ListChecklistSchema.safeParse`. -/
def parseListChecklist (j : JValue) : Except String ListChecklistArgs := do
  let _ ← reqObj j
  let orderId ← reqField j "orderId" (vPosInt "orderId")
  let stage ← reqField j "stage" (vStage "stage")
  return ⟨orderId, stage⟩

/-- `CompleteStageSchema.safeParse`. -/
def parseCompleteStage (j : JValue) : Except String CompleteStageArgs := do
  let _ ← reqObj j
  let orderId ← reqField j "orderId" (vPosInt "orderId")
  let stage ← reqField j "stage" (vStage "stage")
  let serviceTimeMinutes ← optField j "serviceTimeMinutes" (vIntRange "serviceTimeMinutes" 1 600)
  let notes ← optField j "notes" (vStrMax "notes" 2000)
  return ⟨orderId, stage, serviceTimeMinutes, notes⟩

/-- One `tasks` element of `UpdateChecklistSchema`. -/
def vChecklistTask (x : JValue) : Except String ChecklistTaskArg := do
  let _ ← reqObj x
  let taskId ← reqField x "taskId" (vStrMin "taskId" 1)
  let completed ← reqField x "completed" (vBool "completed")
  return ⟨taskId, completed⟩

/-- `UpdateChecklistSchema.safeParse`. -/
def parseUpdateChecklist (j : JValue) : Except String UpdateChecklistArgs := do
  let _ ← reqObj j
  let orderId ← reqField j "orderId" (vPosInt "orderId")
  let stage ← reqField j "stage" (vStage "stage")
  let tasks ← reqField j "tasks" (vArrOf "tasks" 1 vChecklistTask)
  return ⟨orderId, stage, tasks⟩

/-- `FlagExceptionSchema.safeParse`. -/
def parseFlagException (j : JValue) : Except String FlagExceptionArgs := do
  let _ ← reqObj j
  let orderId ← reqField j "orderId" (vPosInt "orderId")
  let stage ← reqField j "stage" (vStage "stage")
  let exceptionReason ← reqField j "exceptionReason" (vStrLen "exceptionReason" 3 500)
  let notes ← optField j "notes" (vStrMax "notes" 2000)
  return ⟨orderId, stage, exceptionReason, notes⟩

/-- `ApproveSkipSchema.safeParse`. -/
def parseApproveSkip (j : JValue) : Except String ApproveSkipArgs := do
  let _ ← reqObj j
  let orderId ← reqField j "orderId" (vPosInt "orderId")
  let stage ← reqField j "stage" (vStage "stage")
  let notes ← optField j "notes" (vStrMax "notes" 2000)
  return ⟨orderId, stage, notes⟩

/-! ### Execution results and the external workflow service model -/

/-- `AgentActionResult.status`. -/
inductive ResultStatus where
  | success
  | error
  | skipped
deriving DecidableEq, Repr

/-- `result.status.toUpperCase()` as used in the execution log rendering. -/
def statusUpper : ResultStatus → String
  | .success => "SUCCESS"
  | .error => "ERROR"
  | .skipped => "SKIPPED"

/-- The opaque `data` payload of an `AgentActionResult`. -/
inductive Payload where
  | orders (xs : List OrderResponse)
  | order (o : OrderResponse)
  | checklist (xs : List ChecklistItem)
  | stageStatus (st : OrderStageStatus)
  | stageStatusOpt (st : Option OrderStageStatus)
deriving DecidableEq, Repr

/-- `AgentActionResult`. -/
structure AgentActionResult where
  name : String
  status : ResultStatus
  summary : String
  data : Option Payload := none
  error : Option String := none
deriving DecidableEq, Repr

/-- `ExecutionContext` (the role `Set` is modelled by a list; `roles.has r`
becomes membership). -/
structure ExecutionContext where
  token : String
  username : String
  roles : List Role
deriving DecidableEq, Repr

/-- One remote call made against the external workflow service, as recorded
in the model's trace. -/
inductive SvcCall where
  | listOrders
  | getOrder (orderId : Int)
  | createOrder (orderNumber : String) (priority : Option Int) (notes : Option String)
  | updatePriority (orderId : Int) (priority : Int)
  | claimStage (orderId : Int) (stage : StageType) (assignee : String)
  | patchChecklist (orderId : Int) (stage : StageType) (taskId : String) (completed : Bool)
  | completeStage (orderId : Int) (stage : StageType) (assignee : String)
      (serviceTimeMinutes : Int) (notes : Option String)
  | flagException (orderId : Int) (stage : StageType) (assignee : String)
      (reason : String) (notes : Option String)
  | approveSkip (orderId : Int) (stage : StageType) (approver : String) (notes : Option String)
deriving DecidableEq, Repr

/-- Modelled from the spec: state of the external workflow service (spec
section 6, an external collaborator accessed only through its interface).  It
holds the order store, per-endpoint failure injection (a `true` entry makes
the corresponding HTTP call fail, i.e. `fetchWithAuth` throws), and a trace of
every remote call made. -/
structure RefState where
  orders : List OrderResponse
  failList : Bool
  failGet : Int → Bool
  failCreate : Bool
  failUpdate : Int → Bool
  failClaim : Int → StageType → Bool
  failPatch : Int → StageType → String → Bool
  failComplete : Int → StageType → Bool
  failFlag : Int → StageType → Bool
  failSkip : Int → StageType → Bool
  trace : List SvcCall

/-- Record one remote call in the trace. -/
def RefState.push (s : RefState) (c : SvcCall) : RefState :=
  { s with trace := s.trace ++ [c] }

/-- Find an order by id in the store. -/
def RefState.findOrder (s : RefState) (orderId : Int) : Option OrderResponse :=
  s.orders.find? (fun o => o.id == orderId)

/-- Replace an order (by id) in the store. -/
def RefState.setOrder (s : RefState) (o : OrderResponse) : RefState :=
  { s with orders := s.orders.map (fun p => if p.id == o.id then o else p) }

/-- `GET /api/orders` — `fetchOrders`. -/
def svcListOrders (s : RefState) : RefState × Except String (List OrderResponse) :=
  let s := s.push .listOrders
  if s.failList then (s, .error "Service unavailable")
  else (s, .ok s.orders)

/-- `GET /api/orders/:orderId`. -/
def svcGetOrder (orderId : Int) (s : RefState) : RefState × Except String OrderResponse :=
  let s := s.push (.getOrder orderId)
  if s.failGet orderId then (s, .error "Service unavailable")
  else
    match s.findOrder orderId with
    | none => (s, .error "Order not found")
    | some o => (s, .ok o)

/-- `POST /api/orders` (create). The backend assigns ids; the model uses one
more than the store length. -/
def svcCreateOrder (orderNumber : String) (priority : Option Int) (notes : Option String)
    (s : RefState) : RefState × Except String OrderResponse :=
  let s := s.push (.createOrder orderNumber priority notes)
  if s.failCreate then (s, .error "Service unavailable")
  else
    let o : OrderResponse :=
      { id := Int.ofNat s.orders.length + 1, orderNumber := orderNumber,
        priority := priority, currentStage := .PREPARATION,
        overallState := .PENDING, createdAt := none, notes := notes, stages := [] }
    ({ s with orders := s.orders ++ [o] }, .ok o)

/-- `PATCH /api/orders/:orderId/priority`. -/
def svcUpdatePriority (orderId : Int) (priority : Int) (s : RefState) :
    RefState × Except String OrderResponse :=
  let s := s.push (.updatePriority orderId priority)
  if s.failUpdate orderId then (s, .error "Service unavailable")
  else
    match s.findOrder orderId with
    | none => (s, .error "Order not found")
    | some o =>
      let o := { o with priority := some priority }
      (s.setOrder o, .ok o)

/-- Replace (every occurrence of) the given stage's status in an order. -/
def setStage (o : OrderResponse) (stage : StageType) (st : OrderStageStatus) :
    OrderResponse :=
  { o with stages := o.stages.map (fun p => if p.stage == stage then st else p) }

/-- Apply `f` to the status of stage `stage` of order `orderId` and return the
updated status, or an error when the order or stage is missing. -/
def RefState.mapStage (s : RefState) (orderId : Int) (stage : StageType)
    (f : OrderStageStatus → OrderStageStatus) :
    RefState × Except String OrderStageStatus :=
  match s.findOrder orderId with
  | none => (s, .error "Order not found")
  | some o =>
    match o.stages.find? (fun st => st.stage == stage) with
    | none => (s, .error "Stage not found")
    | some st =>
      (s.setOrder (setStage o stage (f st)), .ok (f st))

/-- `POST /api/operator/orders/:id/stages/:stage/claim`. -/
def svcClaimStage (orderId : Int) (stage : StageType) (assignee : String) (s : RefState) :
    RefState × Except String OrderStageStatus :=
  let s := s.push (.claimStage orderId stage assignee)
  if s.failClaim orderId stage then (s, .error "Service unavailable")
  else s.mapStage orderId stage (fun st => { st with assignee := some assignee, state := .IN_PROGRESS })

/-- The pure checklist update one `PATCH` call performs on a stage status. -/
def patchTask (taskId : String) (completed : Bool) (st : OrderStageStatus) :
    OrderStageStatus :=
  { st with checklist := st.checklist.map (fun t =>
      if t.id == taskId then { t with completed := completed } else t) }

/-- `PATCH /api/operator/orders/:id/stages/:stage/checklist` — toggles one
task's completion flag. -/
def svcPatchChecklist (orderId : Int) (stage : StageType) (taskId : String)
    (completed : Bool) (s : RefState) : RefState × Except String OrderStageStatus :=
  let s := s.push (.patchChecklist orderId stage taskId completed)
  if s.failPatch orderId stage taskId then (s, .error "Service unavailable")
  else s.mapStage orderId stage (patchTask taskId completed)

/-- The pure stage update a successful completion call performs. -/
def completeStatus (assignee : String) (serviceTimeMinutes : Int) (notes : Option String)
    (st : OrderStageStatus) : OrderStageStatus :=
  { st with state := .COMPLETED, assignee := some assignee,
            serviceTimeMinutes := some serviceTimeMinutes, notes := notes }

/-- `POST /api/operator/orders/:id/stages/:stage/complete`. -/
def svcCompleteStage (orderId : Int) (stage : StageType) (assignee : String)
    (serviceTimeMinutes : Int) (notes : Option String) (s : RefState) :
    RefState × Except String OrderStageStatus :=
  let s := s.push (.completeStage orderId stage assignee serviceTimeMinutes notes)
  if s.failComplete orderId stage then (s, .error "Service unavailable")
  else s.mapStage orderId stage (completeStatus assignee serviceTimeMinutes notes)

/-- `POST /api/operator/orders/:id/stages/:stage/flag-exception`. -/
def svcFlagException (orderId : Int) (stage : StageType) (assignee : String)
    (reason : String) (notes : Option String) (s : RefState) :
    RefState × Except String OrderStageStatus :=
  let s := s.push (.flagException orderId stage assignee reason notes)
  if s.failFlag orderId stage then (s, .error "Service unavailable")
  else s.mapStage orderId stage (fun st =>
    { st with state := .EXCEPTION, assignee := some assignee,
              exceptionReason := some reason, notes := notes })

/-- `POST /api/supervisor/orders/:id/stages/:stage/approve-skip`. -/
def svcApproveSkip (orderId : Int) (stage : StageType) (approver : String)
    (notes : Option String) (s : RefState) : RefState × Except String OrderStageStatus :=
  let s := s.push (.approveSkip orderId stage approver notes)
  if s.failSkip orderId stage then (s, .error "Service unavailable")
  else s.mapStage orderId stage (fun st => { st with state := .SKIPPED, notes := notes })

/-! ### Action handlers and the catalogue -/

/-- JavaScript string interpolation of a possibly-null string. -/
def jsStr (o : Option String) : String :=
  match o with
  | some s => s
  | none => "null"

/-- The validated-argument union passed from `executePlan` to a handler (the
source passes `parsed.data` through an `unknown`-typed field). -/
inductive ActionArgs where
  | listOrders (a : ListOrdersArgs)
  | getOrderDetails (a : GetOrderDetailsArgs)
  | listStageChecklist (a : ListChecklistArgs)
  | createOrder (a : CreateOrderArgs)
  | updateOrderPriority (a : UpdatePriorityArgs)
  | claimStage (a : ClaimStageArgs)
  | updateStageChecklist (a : UpdateChecklistArgs)
  | completeStage (a : CompleteStageArgs)
  | flagStageException (a : FlagExceptionArgs)
  | approveStageSkip (a : ApproveSkipArgs)
deriving DecidableEq, Repr

/-- `list_orders` handler. -/
def listOrdersHandler (a : ListOrdersArgs) (_ctx : ExecutionContext) (s : RefState) :
    RefState × Except String AgentActionResult :=
  match svcListOrders s with
  | (s, .error e) => (s, .error e)
  | (s, .ok orders) =>
    let f1 : List OrderResponse := match a.stage with
      | some st => orders.filter (fun o => o.currentStage == st)
      | none => orders
    let f2 : List OrderResponse := match a.states with
      | some sts => if sts.length ≠ 0 then f1.filter (fun o => sts.contains o.overallState) else f1
      | none => f1
    let limit : Int := match a.limit with
      | some l => l
      | none => min (Int.ofNat f2.length) 10
    (s, .ok { name := "list_orders", status := .success,
              summary := "Retrieved " ++ toString f2.length ++ " orders, returning " ++
                toString limit ++ ".",
              data := some (.orders (f2.take limit.toNat)) })

/-- `get_order_details` handler. -/
def getOrderDetailsHandler (a : GetOrderDetailsArgs) (_ctx : ExecutionContext) (s : RefState) :
    RefState × Except String AgentActionResult :=
  match svcGetOrder a.orderId s with
  | (s, .error e) => (s, .error e)
  | (s, .ok data) =>
    (s, .ok { name := "get_order_details", status := .success,
              summary := "Pulled current data for order " ++ data.orderNumber ++ ".",
              data := some (.order data) })

/-- `list_stage_checklist` handler. -/
def listChecklistHandler (a : ListChecklistArgs) (_ctx : ExecutionContext) (s : RefState) :
    RefState × Except String AgentActionResult :=
  match svcGetOrder a.orderId s with
  | (s, .error e) => (s, .error e)
  | (s, .ok order) =>
    match order.stages.find? (fun st => st.stage == a.stage) with
    | none =>
      (s, .ok { name := "list_stage_checklist", status := .error,
                summary := "Stage " ++ stageTypeString a.stage ++ " was not found on order " ++
                  order.orderNumber ++ "." })
    | some stageStatus =>
      (s, .ok { name := "list_stage_checklist", status := .success,
                summary := "Retrieved " ++ toString stageStatus.checklist.length ++
                  " tasks for stage " ++ stageTypeString a.stage ++ ".",
                data := some (.checklist stageStatus.checklist) })

/-- `create_order` handler. -/
def createOrderHandler (a : CreateOrderArgs) (_ctx : ExecutionContext) (s : RefState) :
    RefState × Except String AgentActionResult :=
  match svcCreateOrder a.orderNumber a.priority a.notes s with
  | (s, .error e) => (s, .error e)
  | (s, .ok data) =>
    (s, .ok { name := "create_order", status := .success,
              summary := "Created order " ++ data.orderNumber ++ " (id " ++ toString data.id ++ ").",
              data := some (.order data) })

/-- `update_order_priority` handler. -/
def updatePriorityHandler (a : UpdatePriorityArgs) (_ctx : ExecutionContext) (s : RefState) :
    RefState × Except String AgentActionResult :=
  match svcUpdatePriority a.orderId a.priority s with
  | (s, .error e) => (s, .error e)
  | (s, .ok data) =>
    (s, .ok { name := "update_order_priority", status := .success,
              summary := "Updated order " ++ data.orderNumber ++ " priority to " ++
                (match data.priority with | some p => toString p | none => "null") ++ ".",
              data := some (.order data) })

/-- `claim_stage` handler. -/
def claimStageHandler (a : ClaimStageArgs) (ctx : ExecutionContext) (s : RefState) :
    RefState × Except String AgentActionResult :=
  let assignee := match a.assignee with
    | some x => x
    | none => ctx.username
  match svcClaimStage a.orderId a.stage assignee s with
  | (s, .error e) => (s, .error e)
  | (s, .ok data) =>
    (s, .ok { name := "claim_stage", status := .success,
              summary := "Stage " ++ stageTypeString data.stage ++ " claimed by " ++
                (match data.assignee with | some x => x | none => ctx.username) ++ ".",
              data := some (.stageStatus data) })

/-- The sequential per-task PATCH loop of the `update_stage_checklist`
handler; a failing call throws and the exception propagates (`.error`). -/
def runChecklistTasks (orderId : Int) (stage : StageType) :
    List ChecklistTaskArg → Option OrderStageStatus → RefState →
    RefState × Except String (Option OrderStageStatus)
  | [], last, s => (s, .ok last)
  | t :: rest, _, s =>
    match svcPatchChecklist orderId stage t.taskId t.completed s with
    | (s, .error e) => (s, .error e)
    | (s, .ok st) => runChecklistTasks orderId stage rest (some st) s

/-- `update_stage_checklist` handler. -/
def updateChecklistHandler (a : UpdateChecklistArgs) (ctx : ExecutionContext) (s : RefState) :
    RefState × Except String AgentActionResult :=
  if ctx.roles.contains .OPERATOR = false then
    (s, .ok { name := "update_stage_checklist", status := .error,
              summary := "Only operators can update stage checklists." })
  else
    match runChecklistTasks a.orderId a.stage a.tasks none s with
    | (s, .error e) => (s, .error e)
    | (s, .ok last) =>
      (s, .ok { name := "update_stage_checklist", status := .success,
                summary := "Updated " ++ toString a.tasks.length ++ " checklist task" ++
                  (if a.tasks.length = 1 then "" else "s") ++ " for stage " ++
                  stageTypeString a.stage ++ ".",
                data := some (.stageStatusOpt last) })

/-- `complete_stage` handler. -/
def completeStageHandler (a : CompleteStageArgs) (ctx : ExecutionContext) (s : RefState) :
    RefState × Except String AgentActionResult :=
  let serviceTime := match a.serviceTimeMinutes with
    | some v => v
    | none => 30
  match svcCompleteStage a.orderId a.stage ctx.username serviceTime a.notes s with
  | (s, .error e) => (s, .error e)
  | (s, .ok data) =>
    (s, .ok { name := "complete_stage", status := .success,
              summary := "Stage " ++ stageTypeString data.stage ++ " completed (state " ++
                stageStateString data.state ++ ").",
              data := some (.stageStatus data) })

/-- `flag_stage_exception` handler. -/
def flagExceptionHandler (a : FlagExceptionArgs) (ctx : ExecutionContext) (s : RefState) :
    RefState × Except String AgentActionResult :=
  match svcFlagException a.orderId a.stage ctx.username a.exceptionReason a.notes s with
  | (s, .error e) => (s, .error e)
  | (s, .ok data) =>
    (s, .ok { name := "flag_stage_exception", status := .success,
              summary := "Flagged stage " ++ stageTypeString data.stage ++ " with exception \"" ++
                jsStr data.exceptionReason ++ "\".",
              data := some (.stageStatus data) })

/-- `approve_stage_skip` handler. -/
def approveSkipHandler (a : ApproveSkipArgs) (ctx : ExecutionContext) (s : RefState) :
    RefState × Except String AgentActionResult :=
  match svcApproveSkip a.orderId a.stage ctx.username a.notes s with
  | (s, .error e) => (s, .error e)
  | (s, .ok data) =>
    (s, .ok { name := "approve_stage_skip", status := .success,
              summary := "Approved skip for stage " ++ stageTypeString data.stage ++ ".",
              data := some (.stageStatus data) })

/-- `ActionDefinition` (the handler takes the validated-argument union; a
variant other than the action's own models the source's unchecked cast and is
unreachable through `executePlan`). -/
structure ActionDefinition where
  name : String
  description : String
  parameterSummary : String
  roles : List Role
  parse : JValue → Except String ActionArgs
  handler : ActionArgs → ExecutionContext → RefState → RefState × Except String AgentActionResult

/-- The `list_orders` catalogue entry. -/
def listOrdersAction : ActionDefinition :=
  { name := "list_orders"
  , description := "Retrieve up to 25 live orders for situational awareness."
  , parameterSummary := "limit (optional number 1-25), stage (PREPARATION/ASSEMBLY/DELIVERY), states (array of workflow states)."
  , roles := [.OPERATOR, .SUPERVISOR]
  , parse := fun j => (parseListOrders j).map .listOrders
  , handler := fun args ctx s =>
      match args with
      | .listOrders a => listOrdersHandler a ctx s
      | _ => (s, .error "invalid argument payload") }

/-- The `get_order_details` catalogue entry. -/
def getOrderDetailsAction : ActionDefinition :=
  { name := "get_order_details"
  , description := "Pull a single order with all stage details before taking action."
  , parameterSummary := "orderId (number)."
  , roles := [.OPERATOR, .SUPERVISOR]
  , parse := fun j => (parseGetOrderDetails j).map .getOrderDetails
  , handler := fun args ctx s =>
      match args with
      | .getOrderDetails a => getOrderDetailsHandler a ctx s
      | _ => (s, .error "invalid argument payload") }

/-- The `list_stage_checklist` catalogue entry. -/
def listStageChecklistAction : ActionDefinition :=
  { name := "list_stage_checklist"
  , description := "Read the checklist items for any stage of an order."
  , parameterSummary := "orderId (number), stage (PREPARATION/ASSEMBLY/DELIVERY)."
  , roles := [.OPERATOR, .SUPERVISOR]
  , parse := fun j => (parseListChecklist j).map .listStageChecklist
  , handler := fun args ctx s =>
      match args with
      | .listStageChecklist a => listChecklistHandler a ctx s
      | _ => (s, .error "invalid argument payload") }

/-- The `create_order` catalogue entry. -/
def createOrderAction : ActionDefinition :=
  { name := "create_order"
  , description := "Create a brand-new work order when supervisors request new work."
  , parameterSummary := "orderNumber (string), priority (optional integer), notes (optional string)."
  , roles := [.SUPERVISOR]
  , parse := fun j => (parseCreateOrder j).map .createOrder
  , handler := fun args ctx s =>
      match args with
      | .createOrder a => createOrderHandler a ctx s
      | _ => (s, .error "invalid argument payload") }

/-- The `update_order_priority` catalogue entry. -/
def updateOrderPriorityAction : ActionDefinition :=
  { name := "update_order_priority"
  , description := "Supervisors can adjust queue priority on any order."
  , parameterSummary := "orderId (number), priority (integer)."
  , roles := [.SUPERVISOR]
  , parse := fun j => (parseUpdatePriority j).map .updateOrderPriority
  , handler := fun args ctx s =>
      match args with
      | .updateOrderPriority a => updatePriorityHandler a ctx s
      | _ => (s, .error "invalid argument payload") }

/-- The `claim_stage` catalogue entry. -/
def claimStageAction : ActionDefinition :=
  { name := "claim_stage"
  , description := "Operators claim a stage before doing work."
  , parameterSummary := "orderId (number), stage (PREPARATION/ASSEMBLY/DELIVERY), assignee (optional string defaults to current user)."
  , roles := [.OPERATOR]
  , parse := fun j => (parseClaimStage j).map .claimStage
  , handler := fun args ctx s =>
      match args with
      | .claimStage a => claimStageHandler a ctx s
      | _ => (s, .error "invalid argument payload") }

/-- The `update_stage_checklist` catalogue entry. -/
def updateStageChecklistAction : ActionDefinition :=
  { name := "update_stage_checklist"
  , description := "Operators can toggle checklist tasks before finishing a stage."
  , parameterSummary := "orderId (number), stage, tasks (array of \x7b taskId, completed \x7d)."
  , roles := [.OPERATOR]
  , parse := fun j => (parseUpdateChecklist j).map .updateStageChecklist
  , handler := fun args ctx s =>
      match args with
      | .updateStageChecklist a => updateChecklistHandler a ctx s
      | _ => (s, .error "invalid argument payload") }

/-- The `complete_stage` catalogue entry. -/
def completeStageAction : ActionDefinition :=
  { name := "complete_stage"
  , description := "Operators mark a stage complete once the work and notes are captured."
  , parameterSummary := "orderId (number), stage, serviceTimeMinutes (optional int, defaults to 30), notes (optional string)."
  , roles := [.OPERATOR]
  , parse := fun j => (parseCompleteStage j).map .completeStage
  , handler := fun args ctx s =>
      match args with
      | .completeStage a => completeStageHandler a ctx s
      | _ => (s, .error "invalid argument payload") }

/-- The `flag_stage_exception` catalogue entry. -/
def flagStageExceptionAction : ActionDefinition :=
  { name := "flag_stage_exception"
  , description := "Operators document blocking issues so supervisors can follow up."
  , parameterSummary := "orderId (number), stage, exceptionReason (string), notes (optional string)."
  , roles := [.OPERATOR]
  , parse := fun j => (parseFlagException j).map .flagStageException
  , handler := fun args ctx s =>
      match args with
      | .flagStageException a => flagExceptionHandler a ctx s
      | _ => (s, .error "invalid argument payload") }

/-- The `approve_stage_skip` catalogue entry. -/
def approveStageSkipAction : ActionDefinition :=
  { name := "approve_stage_skip"
  , description := "Supervisors can approve stage skips or resequencing when justified."
  , parameterSummary := "orderId (number), stage, notes (optional string)."
  , roles := [.SUPERVISOR]
  , parse := fun j => (parseApproveSkip j).map .approveStageSkip
  , handler := fun args ctx s =>
      match args with
      | .approveStageSkip a => approveSkipHandler a ctx s
      | _ => (s, .error "invalid argument payload") }

/-- `ACTION_DEFINITIONS` / `ACTION_LIST`. -/
def ACTION_LIST : List ActionDefinition :=
  [ listOrdersAction, getOrderDetailsAction, listStageChecklistAction,
    createOrderAction, updateOrderPriorityAction, claimStageAction,
    updateStageChecklistAction, completeStageAction, flagStageExceptionAction,
    approveStageSkipAction ]

/-- `ACTION_MAP.get` (the map is built from the list keyed by name). -/
def findAction (n : String) : Option ActionDefinition :=
  ACTION_LIST.find? (fun d => d.name == n)

/-! ### Plan executor -/

/-- One `PlannedAction` of an `AgentPlan` (post `PlanSchema` validation the
`arguments` bag is always present, defaulting to the empty object). -/
structure PlannedAction where
  name : String
  rationale : Option String
  arguments : JValue

/-- `AgentPlan`. -/
structure AgentPlan where
  intent : String
  reasoning : Option String
  notes : Option String
  actions : List PlannedAction

/-- `ensureChecklistBeforeCompletion`: fetch the order, locate the stage,
compute the required-but-incomplete tasks, and when necessary synthesize and
run the implicit `update_stage_checklist` action.  Returns the injected log
entries together with the `ready` flag; the surrounding `try`/`catch` turns
any thrown error into a single error entry. -/
def ensureChecklistBeforeCompletion (args : CompleteStageArgs) (ctx : ExecutionContext)
    (s : RefState) : RefState × (List AgentActionResult × Bool) :=
  match svcGetOrder args.orderId s with
  | (s, .error e) =>
    (s, ([{ name := "update_stage_checklist", status := .error,
            summary := "Failed to evaluate or update checklist tasks before completion.",
            error := some e }], false))
  | (s, .ok order) =>
    match order.stages.find? (fun st => st.stage == args.stage) with
    | none =>
      (s, ([{ name := "complete_stage", status := .error,
              summary := "Stage " ++ stageTypeString args.stage ++ " was not found on order " ++
                order.orderNumber ++ "." }], false))
    | some stageStatus =>
      let pending := stageStatus.checklist.filter (fun t => t.required && !t.completed)
      if pending.length = 0 then
        (s, ([], true))
      else if ctx.roles.contains .OPERATOR = false then
        (s, ([{ name := "update_stage_checklist", status := .error,
                summary := "Checklist tasks are pending, but the current user is not an operator and cannot update them automatically." }],
             false))
      else
        let updateArgs : UpdateChecklistArgs :=
          { orderId := args.orderId, stage := args.stage,
            tasks := pending.map (fun t => { taskId := t.id, completed := true }) }
        match findAction "update_stage_checklist" with
        | none =>
          (s, ([{ name := "update_stage_checklist", status := .error,
                  summary := "Checklist update action is not available in this environment." }],
               false))
        | some updateAction =>
          match updateAction.handler (.updateStageChecklist updateArgs) ctx s with
          | (s, .error e) =>
            (s, ([{ name := "update_stage_checklist", status := .error,
                    summary := "Failed to evaluate or update checklist tasks before completion.",
                    error := some e }], false))
          | (s, .ok updateResult) =>
            if updateResult.status ≠ .success then
              (s, ([updateResult], false))
            else
              (s, ([updateResult], true))

/-- The `complete_stage` special case inside `executePlan`'s loop: run the
checklist precondition rule, otherwise pass through unchanged. -/
def completionGate (definition : ActionDefinition) (parsedArgs : ActionArgs)
    (ctx : ExecutionContext) (s : RefState) :
    RefState × (List AgentActionResult × Bool) :=
  if definition.name = "complete_stage" then
    match parsedArgs with
    | .completeStage ca => ensureChecklistBeforeCompletion ca ctx s
    | _ => (s, ([], true))
  else (s, ([], true))

/-- The guarded handler invocation inside `executePlan`'s loop: call the
handler with the validated arguments; a thrown error is caught and appended as
a generic error entry. -/
def invokeHandler (definition : ActionDefinition) (actionName : String)
    (parsedArgs : ActionArgs) (entries : List AgentActionResult)
    (ctx : ExecutionContext) (s : RefState) : RefState × List AgentActionResult :=
  match definition.handler parsedArgs ctx s with
  | (s, .ok result) => (s, entries ++ [result])
  | (s, .error e) =>
    (s, entries ++ [{ name := actionName, status := .error,
                      summary := "Failed to execute " ++ actionName ++ ".",
                      error := some e }])

/-- The body of `executePlan`'s loop for one planned action: catalogue lookup,
argument validation, the complete-stage precondition rule, and the guarded
handler invocation. -/
def execAction (action : PlannedAction) (ctx : ExecutionContext) (s : RefState) :
    RefState × List AgentActionResult :=
  match findAction action.name with
  | none =>
    (s, [{ name := action.name, status := .error,
           summary := "Action " ++ action.name ++ " is not supported by this environment." }])
  | some definition =>
    match definition.parse action.arguments with
    | .error e =>
      (s, [{ name := action.name, status := .error,
             summary := "Invalid arguments supplied for " ++ action.name ++ ".",
             error := some e }])
    | .ok parsedArgs =>
      match completionGate definition parsedArgs ctx s with
      | (s, (entries, ready)) =>
        if ready = false then (s, entries)
        else invokeHandler definition action.name parsedArgs entries ctx s

/-- `executePlan`: strictly sequential execution, concatenating each planned
action's log entries. -/
def executePlan : List PlannedAction → ExecutionContext → RefState →
    RefState × List AgentActionResult
  | [], _, s => (s, [])
  | action :: rest, ctx, s =>
    let r := execAction action ctx s
    let r2 := executePlan rest ctx r.1
    (r2.1, r.2 ++ r2.2)

/-! ### Context builder -/

/-- `compareOrders`: priority descending, then creation time descending
(absent priority counts as 0; an absent/empty `createdAt` date counts as
epoch 0). -/
def compareOrders (a b : OrderResponse) : Int :=
  let priorityDiff := (b.priority.getD 0) - (a.priority.getD 0)
  if priorityDiff ≠ 0 then priorityDiff
  else (b.createdAt.getD 0) - (a.createdAt.getD 0)

/-- The boolean "a sorts no later than b" order induced by the `compareOrders`
comparator, as consumed by the (stable) `Array.prototype.sort`. -/
def orderLe (a b : OrderResponse) : Bool :=
  decide (compareOrders a b ≤ 0)

/-- The boolean order induced by the stage-rank comparator in `formatOrder`. -/
def stageLe (a b : OrderStageStatus) : Bool :=
  decide (rankStage a.stage ≤ rankStage b.stage)

/-- `formatStage`: the compact one-stage line; falsy (absent or empty) fields
are omitted by the `filter(Boolean)`. -/
def formatStage (stage : OrderStageStatus) : String :=
  let parts : List (Option String) :=
    [ some (stageTypeLower stage.stage ++ ": " ++ stageStateLower stage.state)
    , match stage.assignee with
      | some s => if s = "" then none else some ("assignee " ++ s)
      | none => none
    , match stage.exceptionReason with
      | some s => if s = "" then none else some ("exception " ++ s)
      | none => none
    , match stage.notes with
      | some s => if s = "" then none else some ("notes " ++ s)
      | none => none ]
  String.intercalate " | " (parts.filterMap id)

/-- `formatOrder`: one order header plus its stage lines sorted by the fixed
stage sequence (the `?? 'unknown'` fallback on `orderNumber` is dead under the
declared `OrderResponse` type, which makes `orderNumber` a string). -/
def formatOrder (o : OrderResponse) : String :=
  let header := "Order " ++ o.orderNumber ++ " (id=" ++ toString o.id ++ ") priority " ++
    (match o.priority with | some p => toString p | none => "n/a") ++
    " - current stage " ++ stageTypeLower o.currentStage ++ " / overall " ++
    stageStateLower o.overallState
  let stageSummaries :=
    String.intercalate "; " ((o.stages.mergeSort stageLe).map formatStage)
  header ++ ". Stage details: " ++
    (if stageSummaries = "" then "no recorded stages." else stageSummaries)

/-- The pure digest construction of `buildWorkflowContext` applied to a fetched
order list: stable-sort by the comparator, truncate, render. -/
def contextSummaryOf (orders : List OrderResponse) : String :=
  let limited := (orders.mergeSort orderLe).take MAX_CONTEXT_ORDERS
  "Total orders available: " ++ toString orders.length ++ ". Showing top " ++
    toString limited.length ++ " by priority and creation.\n" ++
    String.intercalate "\n" (limited.map formatOrder)

/-- `buildWorkflowContext`: fetch the orders and render the digest; a fetch
failure degrades to an empty digest plus a warning string. -/
def buildWorkflowContext (s : RefState) : RefState × (String × Option String) :=
  match svcListOrders s with
  | (s, .error e) => (s, ("", some e))
  | (s, .ok orders) =>
    if orders.length = 0 then
      (s, ("No orders are currently available to the signed-in user.", none))
    else
      (s, (contextSummaryOf orders, none))

/-! ### Role normalization -/

/-- The `^ROLE_` strip of `normalizeRoles` (`String.replace` with an anchored
regex removes one leading occurrence). -/
def dropRoleTag (s : String) : String :=
  if s.data.take 5 = "ROLE_".data then ⟨s.data.drop 5⟩ else s

/-- `role.replace(/^ROLE_/, '').toUpperCase()` (upper-casing modelled on
ASCII, applied character by character). -/
def normalizeRoleName (s : String) : String :=
  ⟨(dropRoleTag s).data.map Char.toUpper⟩

/-- `normalizeRoles`: normalize every raw role string and keep only the
recognized enumerated roles (the `Set` is modelled as the filtered list; only
membership is consumed). -/
def normalizeRoles (roles : List String) : List Role :=
  (roles.map normalizeRoleName).filterMap (fun r =>
    if r = "OPERATOR" then some .OPERATOR
    else if r = "SUPERVISOR" then some .SUPERVISOR
    else none)

/-! ### Answer synthesis messages -/

/-- The role tag of one chat message sent to the model. -/
inductive ChatRole where
  | system
  | human
deriving DecidableEq, Repr

/-- One chat message sent to the model. -/
structure ChatMessage where
  role : ChatRole
  content : String
deriving DecidableEq, Repr

/-- One line of the execution-log rendering in `buildFinalAnswer`. -/
def renderResultLine (r : AgentActionResult) : String :=
  "- " ++ r.name ++ ": " ++ statusUpper r.status ++ " — " ++ r.summary ++
    (match r.error with | some e => " (error: " ++ e ++ ")" | none => "")

/-- The `executionLog` string of `buildFinalAnswer`. -/
def buildExecutionLog (results : List AgentActionResult) : String :=
  if results.length = 0 then "No autonomous actions were executed."
  else String.intercalate "\n" (results.map renderResultLine)

/-- The `planSummary` string of `buildFinalAnswer` (`JSON.stringify` is a
JavaScript built-in and is passed in as `stringify`). -/
def planSummaryText (stringify : AgentPlan → String) (plan : Option AgentPlan) : String :=
  match plan with
  | some p => stringify p
  | none => "No plan generated (information-only response)."

/-- The message sequence `buildFinalAnswer` sends to the model. -/
def buildFinalAnswerMessages (stringify : AgentPlan → String) (question contextSummary : String)
    (plan : Option AgentPlan) (results : List AgentActionResult) : List ChatMessage :=
  [ { role := .system
    , content := "You are ProduSoft\x27s workflow assistant. You MUST reflect the real execution results that were already performed. If something failed, explain why and recommend next steps. Never invent actions outside the execution log." }
  , { role := .system, content := "Operational context:\n" ++ contextSummary }
  , { role := .system, content := "Agent plan:\n" ++ planSummaryText stringify plan }
  , { role := .system, content := "Execution log:\n" ++ buildExecutionLog results }
  , { role := .human, content := question } ]

/-! ### JSON extraction and plan parsing -/

/-- The backtick character. -/
def tick : Char := Char.ofNat 96

/-- The opening curly brace character. -/
def lbrace : Char := Char.ofNat 123

/-- The closing curly brace character. -/
def rbrace : Char := Char.ofNat 125

/-- Whitespace for `String.trim` (the ASCII whitespace JavaScript trims). -/
def isJsWhitespace (c : Char) : Bool :=
  c == ' ' || c == '\t' || c == '\n' || c == '\r' || c == Char.ofNat 11 || c == Char.ofNat 12

/-- `text.trim()`. -/
def trimChars (cs : List Char) : List Char :=
  ((cs.dropWhile isJsWhitespace).reverse.dropWhile isJsWhitespace).reverse

/-- Does the text start with the fence opener, three backticks followed by
`json` in any letter case (the regex flag `i`)? -/
def fenceOpenAt : List Char → Bool
  | a :: b :: c :: d :: e :: f :: g :: _ =>
    a == tick && b == tick && c == tick &&
    d.toLower == 'j' && e.toLower == 's' && f.toLower == 'o' && g.toLower == 'n'
  | _ => false

/-- Does the text start with three backticks (the fence closer)? -/
def ticksAt : List Char → Bool
  | a :: b :: c :: _ => a == tick && b == tick && c == tick
  | _ => false

/-- Scan for the earliest fence closer and return the characters before it
(the lazy `([\s\S]*?)` group). -/
def findClose : List Char → Option (List Char)
  | [] => none
  | c :: rest =>
    if ticksAt (c :: rest) then some []
    else (findClose rest).map (fun body => c :: body)

/-- Leftmost match of the fenced-block regex: at each position that starts
with the fence opener, take the lazily shortest body up to a closer; if no
closer follows, the regex engine moves the start position on. -/
def findFence : List Char → Option (List Char)
  | [] => none
  | c :: rest =>
    if fenceOpenAt (c :: rest) then
      match findClose ((c :: rest).drop 7) with
      | some body => some body
      | none => findFence rest
    else findFence rest

/-- `indexOf`: the position of the first occurrence of a character. -/
def firstIndexOfChar (cs : List Char) (c : Char) : Option Nat :=
  match cs with
  | [] => none
  | x :: rest => if x == c then some 0 else (firstIndexOfChar rest c).map (· + 1)

/-- `lastIndexOf`: the position of the last occurrence of a character. -/
def lastIndexOfChar (cs : List Char) (c : Char) : Option Nat :=
  match firstIndexOfChar cs.reverse c with
  | some k => some (cs.length - 1 - k)
  | none => none

/-- `extractJson`: the fenced block labeled json when present, otherwise the
substring from the first opening brace to the last closing brace; `none` when
neither exists. -/
def extractJson (text : List Char) : Option (List Char) :=
  let trimmed := trimChars text
  match findFence trimmed with
  | some body => some (trimChars body)
  | none =>
    match firstIndexOfChar trimmed lbrace, lastIndexOfChar trimmed rbrace with
    | some start, some stop =>
      if stop ≤ start then none
      else some ((trimmed.drop start).take (stop + 1 - start))
    | _, _ => none

/-- `z.string()` with no length bounds. -/
def vStr (k : String) (x : JValue) : Except String String :=
  match x with
  | .str s => .ok s
  | _ => .error (k ++ ": expected string")

/-- `z.enum(ACTION_NAMES)`. -/
def vActionName (k : String) (x : JValue) : Except String String :=
  match x with
  | .str s => if ACTION_NAMES.contains s then .ok s else .error (k ++ ": invalid enum value")
  | _ => .error (k ++ ": expected string")

/-- `z.record(z.any())`: any plain object. -/
def vArgsBag (x : JValue) : Except String JValue :=
  match x with
  | .obj fields => .ok (.obj fields)
  | _ => .error "arguments: expected object"

/-- `PlanActionSchema.safeParse` (the `arguments` bag defaults to the empty
object when absent). -/
def parsePlannedAction (x : JValue) : Except String PlannedAction := do
  let _ ← reqObj x
  let name ← reqField x "name" (vActionName "name")
  let rationale ← optField x "rationale" (vStr "rationale")
  let args ← optField x "arguments" vArgsBag
  return { name := name, rationale := rationale, arguments := args.getD (.obj []) }

/-- `PlanSchema.safeParse` (`intent` defaults to the empty string, `actions`
to the empty sequence). -/
def parseAgentPlan (j : JValue) : Except String AgentPlan := do
  let _ ← reqObj j
  let intent ← optField j "intent" (vStr "intent")
  let reasoning ← optField j "reasoning" (vStr "reasoning")
  let notes ← optField j "notes" (vStr "notes")
  let actions ← optField j "actions" (vArrOf "actions" 0 parsePlannedAction)
  return { intent := intent.getD "", reasoning := reasoning, notes := notes,
           actions := actions.getD [] }

/-- The parsing tail of `generatePlan` applied to the normalized model output:
extract a JSON candidate, run `JSON.parse` (a JavaScript built-in, passed in
as `jparse`; its thrown SyntaxError propagates as the request failure), then
schema-validate. -/
def generatePlan (jparse : List Char → Option JValue) (raw : List Char) :
    Except String AgentPlan :=
  match extractJson raw with
  | none => .error "Agent plan was not valid JSON."
  | some planJson =>
    match jparse planJson with
    | none => .error "Unexpected token in JSON"
    | some parsed =>
      match parseAgentPlan parsed with
      | .error _ => .error "Agent plan schema validation failed."
      | .ok plan => .ok plan

/-! ### Request orchestration (the `POST` handler's core) -/

/-- The identity-service profile (`/auth/me`). -/
structure UserProfile where
  username : String
  roles : List String

/-- The observable outcome of one orchestration run: whether the plan
generator was invoked, the plan, the execution log, the final-answer message
sequence, and the soft context warning. -/
structure AgentRunModel where
  planRequested : Bool
  plan : Option AgentPlan
  log : List AgentActionResult
  finalMessages : List ChatMessage
  contextWarning : Option String

/-- The core of `POST` after input validation and identity resolution:
context digest, role filtering, optional plan generation, optional execution,
final-answer message construction.  A `.error` models the single server-error
response (plan generation failures abort the whole request). -/
def runAgent (stringify : AgentPlan → String) (jparse : List Char → Option JValue)
    (profile : UserProfile) (rawPlanText : List Char) (token question : String)
    (s : RefState) : RefState × Except String AgentRunModel :=
  match buildWorkflowContext s with
  | (s, (contextSummary, contextError)) =>
    let normalizedRoles := normalizeRoles profile.roles
    let allowedActions := ACTION_LIST.filter (fun a =>
      a.roles.any (fun r => normalizedRoles.contains r))
    if allowedActions.length > 0 then
      match generatePlan jparse rawPlanText with
      | .error e => (s, .error e)
      | .ok plan =>
        let ectx : ExecutionContext :=
          { token := token, username := profile.username, roles := normalizedRoles }
        if plan.actions.length > 0 then
          match executePlan plan.actions ectx s with
          | (s, log) =>
            (s, .ok { planRequested := true, plan := some plan, log := log,
                      finalMessages := buildFinalAnswerMessages stringify question
                        contextSummary (some plan) log,
                      contextWarning := contextError })
        else
          (s, .ok { planRequested := true, plan := some plan, log := [],
                    finalMessages := buildFinalAnswerMessages stringify question
                      contextSummary (some plan) [],
                    contextWarning := contextError })
    else
      (s, .ok { planRequested := false, plan := none, log := [],
                finalMessages := buildFinalAnswerMessages stringify question
                  contextSummary none [],
                contextWarning := contextError })

/-! ### Spec-side relations and helpers used by the claims -/

/-- An optional numeric schema field agrees with the bag: present exactly when
validated to `some`, with the same number. -/
def optNumFieldIs (j : JValue) (k : String) : Option Int → Prop
  | some n => j.getField k = some (.num n)
  | none => j.getField k = none

/-- An optional string schema field agrees with the bag. -/
def optStrFieldIs (j : JValue) (k : String) : Option String → Prop
  | some s => j.getField k = some (.str s)
  | none => j.getField k = none

/-- An optional stage-enum schema field agrees with the bag. -/
def optStageFieldIs (j : JValue) (k : String) : Option StageType → Prop
  | some st => j.getField k = some (.str (stageTypeString st))
  | none => j.getField k = none

/-- Modelled from the spec: field-for-field agreement between a bag and one
validated checklist-task element. -/
def taskFieldFaithful (x : JValue) (t : ChecklistTaskArg) : Prop :=
  x.getField "taskId" = some (.str t.taskId) ∧
  x.getField "completed" = some (.bool t.completed)

/-- Modelled from the spec ("argument bags that satisfy an action's schema are
passed to its handler unchanged in meaning, field-for-field"): the
field-for-field relation between an argument bag and the validated arguments,
per action. -/
def argsFieldFaithful (j : JValue) : ActionArgs → Prop
  | .listOrders a =>
      optNumFieldIs j "limit" a.limit ∧ optStageFieldIs j "stage" a.stage ∧
      (match a.states with
       | some sts => j.getField "states" =
           some (.arr (sts.map (fun st => .str (stageStateString st))))
       | none => j.getField "states" = none)
  | .getOrderDetails a => j.getField "orderId" = some (.num a.orderId)
  | .listStageChecklist a =>
      j.getField "orderId" = some (.num a.orderId) ∧
      j.getField "stage" = some (.str (stageTypeString a.stage))
  | .createOrder a =>
      j.getField "orderNumber" = some (.str a.orderNumber) ∧
      optNumFieldIs j "priority" a.priority ∧ optStrFieldIs j "notes" a.notes
  | .updateOrderPriority a =>
      j.getField "orderId" = some (.num a.orderId) ∧
      j.getField "priority" = some (.num a.priority)
  | .claimStage a =>
      j.getField "orderId" = some (.num a.orderId) ∧
      j.getField "stage" = some (.str (stageTypeString a.stage)) ∧
      optStrFieldIs j "assignee" a.assignee
  | .updateStageChecklist a =>
      j.getField "orderId" = some (.num a.orderId) ∧
      j.getField "stage" = some (.str (stageTypeString a.stage)) ∧
      ∃ xs, j.getField "tasks" = some (.arr xs) ∧
        List.Forall₂ taskFieldFaithful xs a.tasks
  | .completeStage a =>
      j.getField "orderId" = some (.num a.orderId) ∧
      j.getField "stage" = some (.str (stageTypeString a.stage)) ∧
      optNumFieldIs j "serviceTimeMinutes" a.serviceTimeMinutes ∧
      optStrFieldIs j "notes" a.notes
  | .flagStageException a =>
      j.getField "orderId" = some (.num a.orderId) ∧
      j.getField "stage" = some (.str (stageTypeString a.stage)) ∧
      j.getField "exceptionReason" = some (.str a.exceptionReason) ∧
      optStrFieldIs j "notes" a.notes
  | .approveStageSkip a =>
      j.getField "orderId" = some (.num a.orderId) ∧
      j.getField "stage" = some (.str (stageTypeString a.stage)) ∧
      optStrFieldIs j "notes" a.notes

/-- Modelled from the spec: "sort by priority descending then recency
descending" — `a` may sort no later than `b`. -/
def specOrderLe (a b : OrderResponse) : Prop :=
  b.priority.getD 0 < a.priority.getD 0 ∨
  (a.priority.getD 0 = b.priority.getD 0 ∧ b.createdAt.getD 0 ≤ a.createdAt.getD 0)

/-- Modelled from the spec: stage lines follow the fixed
PREPARATION, ASSEMBLY, DELIVERY sequence. -/
def specStageLe (a b : OrderStageStatus) : Prop :=
  rankStage a.stage ≤ rankStage b.stage

/-- Four characters spelling `json` in any letter case. -/
def IsJsonTag (l : List Char) : Prop :=
  l.map Char.toLower = ['j', 's', 'o', 'n']

/-- Modelled from the spec: the text contains a fenced code block labeled as
JSON — an opener of three backticks and a `json` tag, a body, and a closer of
three backticks. -/
def HasJsonFence (cs : List Char) : Prop :=
  ∃ pre tag body post, IsJsonTag tag ∧
    cs = pre ++ [tick, tick, tick] ++ tag ++ body ++ [tick, tick, tick] ++ post

/-- The pure effect on a checklist of applying a sequence of task updates in
order (used to state what the partially-applied checklist looks like after a
mid-sequence failure). -/
def applyTasksChecklist (ts : List ChecklistTaskArg) (cl : List ChecklistItem) :
    List ChecklistItem :=
  ts.foldl (fun cl t => cl.map (fun item =>
    if item.id == t.taskId then { item with completed := t.completed } else item)) cl

/-- The remote call that one checklist task update issues. -/
def patchCallOf (orderId : Int) (stage : StageType) (t : ChecklistTaskArg) : SvcCall :=
  .patchChecklist orderId stage t.taskId t.completed

/-- Is a recorded remote call a stage-completion call? -/
def isCompleteCall : SvcCall → Bool
  | .completeStage _ _ _ _ _ => true
  | _ => false

/-- A reference-service state with the given order store, no injected
failures, and an empty trace. -/
def plainState (orders : List OrderResponse) : RefState :=
  { orders := orders, failList := false, failGet := fun _ => false,
    failCreate := false, failUpdate := fun _ => false,
    failClaim := fun _ _ => false, failPatch := fun _ _ _ => false,
    failComplete := fun _ _ => false, failFlag := fun _ _ => false,
    failSkip := fun _ _ => false, trace := [] }

/-- A sample checklist stage used by concrete witnesses: two required tasks,
one already complete, plus an optional incomplete task. -/
def sampleStage : OrderStageStatus :=
  { stage := .ASSEMBLY, state := .IN_PROGRESS, assignee := some "amara",
    serviceTimeMinutes := none, notes := none, exceptionReason := none,
    checklist :=
      [ { id := "t1", label := "torque check", required := true, completed := false }
      , { id := "t2", label := "fit check", required := true, completed := true }
      , { id := "t3", label := "polish", required := false, completed := false }
      , { id := "t4", label := "weld seam", required := true, completed := false } ] }

/-- A sample order used by concrete witnesses. -/
def sampleOrder : OrderResponse :=
  { id := 9, orderNumber := "PO-9", priority := some 5, currentStage := .ASSEMBLY,
    overallState := .IN_PROGRESS, createdAt := some 1700000000000, notes := none,
    stages :=
      [ { stage := .PREPARATION, state := .COMPLETED, assignee := some "amara",
          serviceTimeMinutes := some 25, notes := none, exceptionReason := none,
          checklist := [] }
      , sampleStage ] }

/-- A planned `complete_stage` action over the sample order, as emitted by the
planner. -/
def sampleCompleteAction : PlannedAction :=
  { name := "complete_stage", rationale := none,
    arguments := .obj [("orderId", .num 9), ("stage", .str "ASSEMBLY")] }

/-- An operator execution context used by concrete witnesses. -/
def opCtx : ExecutionContext :=
  { token := "tok", username := "amara", roles := [.OPERATOR] }

/-- A supervisor-only execution context used by concrete witnesses. -/
def supCtx : ExecutionContext :=
  { token := "tok", username := "sana", roles := [.SUPERVISOR] }

/-- A state over the sample order in which every checklist `PATCH` call
fails. -/
def patchFailState : RefState :=
  { plainState [sampleOrder] with failPatch := fun _ _ _ => true }

/-- A state over the sample order in which only task `t4`'s `PATCH` call
fails. -/
def patchT4FailState : RefState :=
  { plainState [sampleOrder] with failPatch := fun _ _ tid => tid == "t4" }

/-- A planned `update_stage_checklist` action ticking tasks `t1` and `t4` of
the sample order. -/
def sampleUpdateAction : PlannedAction :=
  { name := "update_stage_checklist", rationale := none,
    arguments := .obj
      [ ("orderId", .num 9), ("stage", .str "ASSEMBLY")
      , ("tasks", .arr
          [ .obj [("taskId", .str "t1"), ("completed", .bool true)]
          , .obj [("taskId", .str "t4"), ("completed", .bool true)] ]) ] }

/-! ## Theorems

Shared decomposition lemmas for the schema validators, then the claim
theorems. -/

theorem except_bind_ok {ε α β : Type} {e : Except ε α} {f : α → Except ε β} {b : β}
    (h : (e >>= f) = .ok b) : ∃ a, e = .ok a ∧ f a = .ok b := by
  cases e with
  | error e => exact Except.noConfusion h
  | ok a => exact ⟨a, rfl, h⟩

theorem except_map_ok {ε α β : Type} {e : Except ε α} {f : α → β} {b : β}
    (h : e.map f = .ok b) : ∃ a, e = .ok a ∧ f a = b := by
  cases e with
  | error e => exact Except.noConfusion h
  | ok a =>
    refine ⟨a, rfl, ?_⟩
    have h2 : Except.ok (ε := ε) (f a) = .ok b := h
    injection h2

theorem reqField_ok {α : Type} {j : JValue} {k : String} {v : JValue → Except String α}
    {a : α} (h : reqField j k v = .ok a) : ∃ x, j.getField k = some x ∧ v x = .ok a := by
  unfold reqField at h
  split at h
  · exact Except.noConfusion h
  · exact ⟨_, by assumption, h⟩

theorem optField_ok {α : Type} {j : JValue} {k : String} {v : JValue → Except String α}
    {r : Option α} (h : optField j k v = .ok r) :
    (j.getField k = none ∧ r = none) ∨
    ∃ x a, j.getField k = some x ∧ v x = .ok a ∧ r = some a := by
  unfold optField at h
  split at h
  · exact Or.inl ⟨by assumption, by injection h with h; exact h.symm⟩
  · obtain ⟨a, ha, hr⟩ := except_map_ok h
    exact Or.inr ⟨_, a, by assumption, ha, hr.symm⟩

theorem vPosInt_ok {k : String} {x : JValue} {n : Int} (h : vPosInt k x = .ok n) :
    x = .num n ∧ 0 < n := by
  unfold vPosInt at h
  split at h
  · split at h
    · injection h with h; subst h; exact ⟨rfl, by assumption⟩
    · exact Except.noConfusion h
  · exact Except.noConfusion h

theorem vIntRange_ok {k : String} {lo hi : Int} {x : JValue} {n : Int}
    (h : vIntRange k lo hi x = .ok n) : x = .num n ∧ lo ≤ n ∧ n ≤ hi := by
  unfold vIntRange at h
  split at h
  · split at h
    · injection h with h; subst h; exact ⟨rfl, by assumption⟩
    · exact Except.noConfusion h
  · exact Except.noConfusion h

theorem vStrLen_ok {k : String} {lo hi : Nat} {x : JValue} {s : String}
    (h : vStrLen k lo hi x = .ok s) : x = .str s ∧ lo ≤ s.length ∧ s.length ≤ hi := by
  unfold vStrLen at h
  split at h
  · split at h
    · injection h with h; subst h; exact ⟨rfl, by assumption⟩
    · exact Except.noConfusion h
  · exact Except.noConfusion h

theorem vStrMax_ok {k : String} {hi : Nat} {x : JValue} {s : String}
    (h : vStrMax k hi x = .ok s) : x = .str s :=
  (vStrLen_ok h).1

theorem vStrMin_ok {k : String} {lo : Nat} {x : JValue} {s : String}
    (h : vStrMin k lo x = .ok s) : x = .str s ∧ lo ≤ s.length := by
  unfold vStrMin at h
  split at h
  · split at h
    · injection h with h; subst h; exact ⟨rfl, by assumption⟩
    · exact Except.noConfusion h
  · exact Except.noConfusion h

theorem vBool_ok {k : String} {x : JValue} {b : Bool} (h : vBool k x = .ok b) :
    x = .bool b := by
  unfold vBool at h
  split at h
  · injection h with h; subst h; rfl
  · exact Except.noConfusion h

theorem vStr_ok {k : String} {x : JValue} {s : String} (h : vStr k x = .ok s) :
    x = .str s := by
  unfold vStr at h
  split at h
  · injection h with h; subst h; rfl
  · exact Except.noConfusion h

theorem vStage_ok {k : String} {x : JValue} {st : StageType} (h : vStage k x = .ok st) :
    x = .str (stageTypeString st) := by
  unfold vStage at h
  split at h
  · split at h
    · injection h with h; subst h; simp_all [stageTypeString]
    · split at h
      · injection h with h; subst h; simp_all [stageTypeString]
      · split at h
        · injection h with h; subst h; simp_all [stageTypeString]
        · exact Except.noConfusion h
  · exact Except.noConfusion h

theorem vState_ok {k : String} {x : JValue} {st : StageState} (h : vState k x = .ok st) :
    x = .str (stageStateString st) := by
  unfold vState at h
  split at h
  · repeat
      first
      | (split at h)
      | (injection h with h; subst h; simp_all [stageStateString])
      | exact Except.noConfusion h
  · exact Except.noConfusion h

theorem mapExcept_ok {α : Type} {elem : JValue → Except String α} {xs : List JValue}
    {ys : List α} (h : mapExcept elem xs = .ok ys) :
    List.Forall₂ (fun x y => elem x = .ok y) xs ys := by
  induction xs generalizing ys with
  | nil =>
    unfold mapExcept at h
    injection h with h
    subst h
    exact .nil
  | cons x xs ih =>
    unfold mapExcept at h
    obtain ⟨y, hy, h⟩ := except_bind_ok h
    obtain ⟨ys', hys, h⟩ := except_bind_ok h
    injection h with h
    subst h
    exact .cons hy (ih hys)

theorem vArrOf_ok {α : Type} {k : String} {lo : Nat} {elem : JValue → Except String α}
    {x : JValue} {ys : List α} (h : vArrOf k lo elem x = .ok ys) :
    ∃ xs, x = .arr xs ∧ lo ≤ xs.length ∧
      List.Forall₂ (fun x y => elem x = .ok y) xs ys := by
  unfold vArrOf at h
  split at h
  · split at h
    · exact ⟨_, rfl, by assumption, mapExcept_ok h⟩
    · exact Except.noConfusion h
  · exact Except.noConfusion h

theorem forall₂_eq_map {α β : Type} {f : β → α} {xs : List α} {ys : List β}
    (h : List.Forall₂ (fun x y => x = f y) xs ys) : xs = ys.map f := by
  induction h with
  | nil => rfl
  | cons hxy _ ih => simp [List.map, hxy, ih]

theorem reqField_vPosInt {j : JValue} {k k' : String} {n : Int}
    (h : reqField j k (vPosInt k') = .ok n) : j.getField k = some (.num n) := by
  obtain ⟨x, hx, hv⟩ := reqField_ok h
  obtain ⟨rfl, _⟩ := vPosInt_ok hv
  exact hx

theorem reqField_vIntRange {j : JValue} {k k' : String} {lo hi n : Int}
    (h : reqField j k (vIntRange k' lo hi) = .ok n) : j.getField k = some (.num n) := by
  obtain ⟨x, hx, hv⟩ := reqField_ok h
  obtain ⟨rfl, _⟩ := vIntRange_ok hv
  exact hx

theorem reqField_vStage {j : JValue} {k k' : String} {st : StageType}
    (h : reqField j k (vStage k') = .ok st) :
    j.getField k = some (.str (stageTypeString st)) := by
  obtain ⟨x, hx, hv⟩ := reqField_ok h
  rw [vStage_ok hv] at hx
  exact hx

theorem reqField_vStrLen {j : JValue} {k k' : String} {lo hi : Nat} {s : String}
    (h : reqField j k (vStrLen k' lo hi) = .ok s) : j.getField k = some (.str s) := by
  obtain ⟨x, hx, hv⟩ := reqField_ok h
  obtain ⟨rfl, _⟩ := vStrLen_ok hv
  exact hx

theorem optField_vIntRange {j : JValue} {k k' : String} {lo hi : Int} {r : Option Int}
    (h : optField j k (vIntRange k' lo hi) = .ok r) : optNumFieldIs j k r := by
  rcases optField_ok h with ⟨hn, rfl⟩ | ⟨x, a, hx, hv, rfl⟩
  · simpa [optNumFieldIs] using hn
  · obtain ⟨rfl, _⟩ := vIntRange_ok hv
    simpa [optNumFieldIs] using hx

theorem optField_vStrLen {j : JValue} {k k' : String} {lo hi : Nat} {r : Option String}
    (h : optField j k (vStrLen k' lo hi) = .ok r) : optStrFieldIs j k r := by
  rcases optField_ok h with ⟨hn, rfl⟩ | ⟨x, a, hx, hv, rfl⟩
  · simpa [optStrFieldIs] using hn
  · obtain ⟨rfl, _⟩ := vStrLen_ok hv
    simpa [optStrFieldIs] using hx

theorem optField_vStage {j : JValue} {k k' : String} {r : Option StageType}
    (h : optField j k (vStage k') = .ok r) : optStageFieldIs j k r := by
  rcases optField_ok h with ⟨hn, rfl⟩ | ⟨x, a, hx, hv, rfl⟩
  · simpa [optStageFieldIs] using hn
  · rw [vStage_ok hv] at hx
    simpa [optStageFieldIs] using hx

theorem parseListOrders_faithful {j : JValue} {a : ListOrdersArgs}
    (h : parseListOrders j = .ok a) : argsFieldFaithful j (.listOrders a) := by
  unfold parseListOrders at h
  obtain ⟨u, hu, h⟩ := except_bind_ok h
  obtain ⟨limit, hlim, h⟩ := except_bind_ok h
  obtain ⟨stage, hstage, h⟩ := except_bind_ok h
  obtain ⟨states, hstates, h⟩ := except_bind_ok h
  injection h with h
  subst h
  refine ⟨optField_vIntRange hlim, optField_vStage hstage, ?_⟩
  rcases optField_ok hstates with ⟨hn, rfl⟩ | ⟨x, sts, hx, hv, rfl⟩
  · simpa using hn
  · obtain ⟨xs, rfl, _, hall⟩ := vArrOf_ok hv
    have : xs = sts.map (fun st => JValue.str (stageStateString st)) :=
      forall₂_eq_map (hall.imp (fun _ _ hxy => vState_ok hxy))
    simpa [this] using hx

theorem parseGetOrderDetails_faithful {j : JValue} {a : GetOrderDetailsArgs}
    (h : parseGetOrderDetails j = .ok a) : argsFieldFaithful j (.getOrderDetails a) := by
  unfold parseGetOrderDetails at h
  obtain ⟨u, hu, h⟩ := except_bind_ok h
  obtain ⟨oid, hoid, h⟩ := except_bind_ok h
  injection h with h
  subst h
  exact reqField_vPosInt hoid

theorem parseListChecklist_faithful {j : JValue} {a : ListChecklistArgs}
    (h : parseListChecklist j = .ok a) : argsFieldFaithful j (.listStageChecklist a) := by
  unfold parseListChecklist at h
  obtain ⟨u, hu, h⟩ := except_bind_ok h
  obtain ⟨oid, hoid, h⟩ := except_bind_ok h
  obtain ⟨stage, hstage, h⟩ := except_bind_ok h
  injection h with h
  subst h
  exact ⟨reqField_vPosInt hoid, reqField_vStage hstage⟩

theorem parseCreateOrder_faithful {j : JValue} {a : CreateOrderArgs}
    (h : parseCreateOrder j = .ok a) : argsFieldFaithful j (.createOrder a) := by
  unfold parseCreateOrder at h
  obtain ⟨u, hu, h⟩ := except_bind_ok h
  obtain ⟨num, hnum, h⟩ := except_bind_ok h
  obtain ⟨pr, hpr, h⟩ := except_bind_ok h
  obtain ⟨nts, hnts, h⟩ := except_bind_ok h
  injection h with h
  subst h
  exact ⟨reqField_vStrLen hnum, optField_vIntRange hpr, optField_vStrLen hnts⟩

theorem parseUpdatePriority_faithful {j : JValue} {a : UpdatePriorityArgs}
    (h : parseUpdatePriority j = .ok a) : argsFieldFaithful j (.updateOrderPriority a) := by
  unfold parseUpdatePriority at h
  obtain ⟨u, hu, h⟩ := except_bind_ok h
  obtain ⟨oid, hoid, h⟩ := except_bind_ok h
  obtain ⟨pr, hpr, h⟩ := except_bind_ok h
  injection h with h
  subst h
  exact ⟨reqField_vPosInt hoid, reqField_vIntRange hpr⟩

theorem parseClaimStage_faithful {j : JValue} {a : ClaimStageArgs}
    (h : parseClaimStage j = .ok a) : argsFieldFaithful j (.claimStage a) := by
  unfold parseClaimStage at h
  obtain ⟨u, hu, h⟩ := except_bind_ok h
  obtain ⟨oid, hoid, h⟩ := except_bind_ok h
  obtain ⟨stage, hstage, h⟩ := except_bind_ok h
  obtain ⟨ass, hass, h⟩ := except_bind_ok h
  injection h with h
  subst h
  exact ⟨reqField_vPosInt hoid, reqField_vStage hstage, optField_vStrLen hass⟩

theorem parseCompleteStage_faithful {j : JValue} {a : CompleteStageArgs}
    (h : parseCompleteStage j = .ok a) : argsFieldFaithful j (.completeStage a) := by
  unfold parseCompleteStage at h
  obtain ⟨u, hu, h⟩ := except_bind_ok h
  obtain ⟨oid, hoid, h⟩ := except_bind_ok h
  obtain ⟨stage, hstage, h⟩ := except_bind_ok h
  obtain ⟨svc, hsvc, h⟩ := except_bind_ok h
  obtain ⟨nts, hnts, h⟩ := except_bind_ok h
  injection h with h
  subst h
  exact ⟨reqField_vPosInt hoid, reqField_vStage hstage, optField_vIntRange hsvc,
    optField_vStrLen hnts⟩

theorem vChecklistTask_faithful {x : JValue} {t : ChecklistTaskArg}
    (h : vChecklistTask x = .ok t) : taskFieldFaithful x t := by
  unfold vChecklistTask at h
  obtain ⟨u, hu, h⟩ := except_bind_ok h
  obtain ⟨tid, htid, h⟩ := except_bind_ok h
  obtain ⟨cpl, hcpl, h⟩ := except_bind_ok h
  injection h with h
  subst h
  constructor
  · obtain ⟨y, hy, hv⟩ := reqField_ok htid
    obtain ⟨rfl, _⟩ := vStrMin_ok hv
    exact hy
  · obtain ⟨y, hy, hv⟩ := reqField_ok hcpl
    rw [vBool_ok hv] at hy
    exact hy

theorem parseUpdateChecklist_faithful {j : JValue} {a : UpdateChecklistArgs}
    (h : parseUpdateChecklist j = .ok a) : argsFieldFaithful j (.updateStageChecklist a) := by
  unfold parseUpdateChecklist at h
  obtain ⟨u, hu, h⟩ := except_bind_ok h
  obtain ⟨oid, hoid, h⟩ := except_bind_ok h
  obtain ⟨stage, hstage, h⟩ := except_bind_ok h
  obtain ⟨tasks, htasks, h⟩ := except_bind_ok h
  injection h with h
  subst h
  refine ⟨reqField_vPosInt hoid, reqField_vStage hstage, ?_⟩
  obtain ⟨y, hy, hv⟩ := reqField_ok htasks
  obtain ⟨xs, rfl, _, hall⟩ := vArrOf_ok hv
  exact ⟨xs, hy, hall.imp (fun _ _ hxy => vChecklistTask_faithful hxy)⟩

theorem parseFlagException_faithful {j : JValue} {a : FlagExceptionArgs}
    (h : parseFlagException j = .ok a) : argsFieldFaithful j (.flagStageException a) := by
  unfold parseFlagException at h
  obtain ⟨u, hu, h⟩ := except_bind_ok h
  obtain ⟨oid, hoid, h⟩ := except_bind_ok h
  obtain ⟨stage, hstage, h⟩ := except_bind_ok h
  obtain ⟨rsn, hrsn, h⟩ := except_bind_ok h
  obtain ⟨nts, hnts, h⟩ := except_bind_ok h
  injection h with h
  subst h
  exact ⟨reqField_vPosInt hoid, reqField_vStage hstage, reqField_vStrLen hrsn,
    optField_vStrLen hnts⟩

theorem parseApproveSkip_faithful {j : JValue} {a : ApproveSkipArgs}
    (h : parseApproveSkip j = .ok a) : argsFieldFaithful j (.approveStageSkip a) := by
  unfold parseApproveSkip at h
  obtain ⟨u, hu, h⟩ := except_bind_ok h
  obtain ⟨oid, hoid, h⟩ := except_bind_ok h
  obtain ⟨stage, hstage, h⟩ := except_bind_ok h
  obtain ⟨nts, hnts, h⟩ := except_bind_ok h
  injection h with h
  subst h
  exact ⟨reqField_vPosInt hoid, reqField_vStage hstage, optField_vStrLen hnts⟩

theorem push_trace (s : RefState) (c : SvcCall) : (s.push c).trace = s.trace ++ [c] := rfl

theorem push_findOrder (s : RefState) (c : SvcCall) (i : Int) :
    (s.push c).findOrder i = s.findOrder i := rfl

theorem push_failGet (s : RefState) (c : SvcCall) : (s.push c).failGet = s.failGet := rfl

theorem push_failPatch (s : RefState) (c : SvcCall) : (s.push c).failPatch = s.failPatch := rfl

theorem push_failComplete (s : RefState) (c : SvcCall) :
    (s.push c).failComplete = s.failComplete := rfl

theorem setOrder_trace (s : RefState) (o : OrderResponse) :
    (s.setOrder o).trace = s.trace := rfl

theorem setOrder_failGet (s : RefState) (o : OrderResponse) :
    (s.setOrder o).failGet = s.failGet := rfl

theorem setOrder_failPatch (s : RefState) (o : OrderResponse) :
    (s.setOrder o).failPatch = s.failPatch := rfl

theorem setOrder_failComplete (s : RefState) (o : OrderResponse) :
    (s.setOrder o).failComplete = s.failComplete := rfl

theorem contains_true_of_mem {l : List Role} {r : Role} (h : r ∈ l) :
    l.contains r = true :=
  List.elem_eq_true_of_mem h

theorem contains_false_of_not_mem {l : List Role} {r : Role} (h : r ∉ l) :
    l.contains r = false := by
  cases hc : l.contains r
  · rfl
  · exact absurd (List.mem_of_elem_eq_true hc) h

theorem find?_id_map_replace {l : List OrderResponse} {oid : Int} {o o' : OrderResponse}
    (hfind : l.find? (fun p => p.id == oid) = some o) (hid : o'.id = o.id) :
    (l.map (fun p => if p.id == o'.id then o' else p)).find? (fun p => p.id == oid) =
      some o' := by
  have hoid := List.find?_some hfind
  simp only [beq_iff_eq] at hoid
  induction l with
  | nil => simp [List.find?] at hfind
  | cons p l ih =>
    by_cases hp : p.id = oid
    · have hb : (p.id == oid) = true := by simp [hp]
      simp only [List.find?_cons, hb] at hfind
      injection hfind with hfind
      have hb2 : (p.id == o'.id) = true := by simp [hid, ← hfind]
      have hb3 : (o'.id == oid) = true := by simp [hid, ← hfind, hp]
      simp only [List.map_cons, hb2, if_true, List.find?_cons, hb3]
    · have hb : (p.id == oid) = false := by simp [hp]
      simp only [List.find?_cons, hb] at hfind
      have hb2 : (p.id == o'.id) = false := by
        simp only [beq_eq_false_iff_ne, ne_eq, hid, hoid]
        exact hp
      simp only [List.map_cons, hb2, Bool.false_eq_true, if_false, List.find?_cons, hb]
      exact ih hfind

theorem find?_stage_map_replace {l : List OrderStageStatus} {stage : StageType}
    {st st' : OrderStageStatus} (hst' : (st'.stage == stage) = true)
    (hfind : l.find? (fun p => p.stage == stage) = some st) :
    (l.map (fun p => if p.stage == stage then st' else p)).find?
      (fun p => p.stage == stage) = some st' := by
  induction l with
  | nil => simp [List.find?] at hfind
  | cons p l ih =>
    by_cases hp : (p.stage == stage) = true
    · simp only [List.map_cons, hp, if_true, List.find?_cons, hst']
    · have hb : (p.stage == stage) = false := by
        cases hx : (p.stage == stage)
        · rfl
        · exact absurd hx hp
      simp only [List.find?_cons, hb] at hfind
      simp only [List.map_cons, hb, Bool.false_eq_true, if_false, List.find?_cons, hb]
      exact ih hfind

theorem mapStage_ok {s : RefState} {oid : Int} {stage : StageType}
    {o : OrderResponse} {st : OrderStageStatus} {f : OrderStageStatus → OrderStageStatus}
    (hfind : s.findOrder oid = some o)
    (hst : o.stages.find? (fun p => p.stage == stage) = some st) :
    s.mapStage oid stage f = (s.setOrder (setStage o stage (f st)), .ok (f st)) := by
  unfold RefState.mapStage
  simp only [hfind, hst]

theorem svcGetOrder_ok {s : RefState} {oid : Int} {o : OrderResponse}
    (hfail : s.failGet oid = false) (hfind : s.findOrder oid = some o) :
    svcGetOrder oid s = (s.push (.getOrder oid), .ok o) := by
  simp only [svcGetOrder, push_failGet, push_findOrder, hfail, hfind,
    Bool.false_eq_true, if_false]

theorem svcPatchChecklist_ok {s : RefState} {oid : Int} {stage : StageType} {tid : String}
    {b : Bool} {o : OrderResponse} {st : OrderStageStatus}
    (hfail : s.failPatch oid stage tid = false)
    (hfind : s.findOrder oid = some o)
    (hst : o.stages.find? (fun p => p.stage == stage) = some st) :
    svcPatchChecklist oid stage tid b s =
      ((s.push (.patchChecklist oid stage tid b)).setOrder
        (setStage o stage (patchTask tid b st)), .ok (patchTask tid b st)) := by
  simp only [svcPatchChecklist, push_failPatch, hfail, Bool.false_eq_true, if_false]
  exact mapStage_ok (by rw [push_findOrder]; exact hfind) hst

theorem svcPatchChecklist_fail {s : RefState} {oid : Int} {stage : StageType} {tid : String}
    {b : Bool} (hfail : s.failPatch oid stage tid = true) :
    svcPatchChecklist oid stage tid b s =
      (s.push (.patchChecklist oid stage tid b), .error "Service unavailable") := by
  simp only [svcPatchChecklist, push_failPatch, hfail, if_true]

theorem svcCompleteStage_ok {s : RefState} {oid : Int} {stage : StageType} {u : String}
    {m : Int} {nts : Option String} {o : OrderResponse} {st : OrderStageStatus}
    (hfail : s.failComplete oid stage = false)
    (hfind : s.findOrder oid = some o)
    (hst : o.stages.find? (fun p => p.stage == stage) = some st) :
    svcCompleteStage oid stage u m nts s =
      ((s.push (.completeStage oid stage u m nts)).setOrder
        (setStage o stage (completeStatus u m nts st)),
       .ok (completeStatus u m nts st)) := by
  simp only [svcCompleteStage, push_failComplete, hfail, Bool.false_eq_true, if_false]
  exact mapStage_ok (by rw [push_findOrder]; exact hfind) hst

theorem svcCompleteStage_fail {s : RefState} {oid : Int} {stage : StageType} {u : String}
    {m : Int} {nts : Option String} (hfail : s.failComplete oid stage = true) :
    svcCompleteStage oid stage u m nts s =
      (s.push (.completeStage oid stage u m nts), .error "Service unavailable") := by
  simp only [svcCompleteStage, push_failComplete, hfail, if_true]

theorem findAction_mem : ∀ d ∈ ACTION_LIST, findAction d.name = some d := by
  intro d hd
  fin_cases hd <;> rfl

theorem findAction_none {n : String} (h : ¬ n ∈ ACTION_NAMES) : findAction n = none := by
  simp only [ACTION_NAMES, List.mem_cons, List.not_mem_nil, or_false, not_or] at h
  obtain ⟨h1, h2, h3, h4, h5, h6, h7, h8, h9, h10⟩ := h
  have b1 : ("list_orders" == n) = false := beq_eq_false_iff_ne.mpr (Ne.symm h1)
  have b2 : ("get_order_details" == n) = false := beq_eq_false_iff_ne.mpr (Ne.symm h2)
  have b3 : ("list_stage_checklist" == n) = false := beq_eq_false_iff_ne.mpr (Ne.symm h3)
  have b4 : ("create_order" == n) = false := beq_eq_false_iff_ne.mpr (Ne.symm h4)
  have b5 : ("update_order_priority" == n) = false := beq_eq_false_iff_ne.mpr (Ne.symm h5)
  have b6 : ("claim_stage" == n) = false := beq_eq_false_iff_ne.mpr (Ne.symm h6)
  have b7 : ("update_stage_checklist" == n) = false := beq_eq_false_iff_ne.mpr (Ne.symm h7)
  have b8 : ("complete_stage" == n) = false := beq_eq_false_iff_ne.mpr (Ne.symm h8)
  have b9 : ("flag_stage_exception" == n) = false := beq_eq_false_iff_ne.mpr (Ne.symm h9)
  have b10 : ("approve_stage_skip" == n) = false := beq_eq_false_iff_ne.mpr (Ne.symm h10)
  simp [findAction, ACTION_LIST, List.find?, listOrdersAction, getOrderDetailsAction,
    listStageChecklistAction, createOrderAction, updateOrderPriorityAction,
    claimStageAction, updateStageChecklistAction, completeStageAction,
    flagStageExceptionAction, approveStageSkipAction,
    b1, b2, b3, b4, b5, b6, b7, b8, b9, b10]

theorem executePlan_nil (ctx : ExecutionContext) (s : RefState) :
    executePlan [] ctx s = (s, []) := rfl

theorem executePlan_cons (a : PlannedAction) (rest : List PlannedAction)
    (ctx : ExecutionContext) (s : RefState) :
    executePlan (a :: rest) ctx s =
      ((executePlan rest ctx (execAction a ctx s).1).1,
       (execAction a ctx s).2 ++ (executePlan rest ctx (execAction a ctx s).1).2) := rfl

theorem executePlan_append (xs ys : List PlannedAction) (ctx : ExecutionContext)
    (s : RefState) :
    executePlan (xs ++ ys) ctx s =
      ((executePlan ys ctx (executePlan xs ctx s).1).1,
       (executePlan xs ctx s).2 ++ (executePlan ys ctx (executePlan xs ctx s).1).2) := by
  induction xs generalizing s with
  | nil => simp [executePlan_nil]
  | cons a xs ih =>
    simp only [List.cons_append, executePlan_cons, ih, List.append_assoc]

theorem ensureChecklist_shape (args : CompleteStageArgs) (ctx : ExecutionContext)
    (s : RefState) :
    ∃ s' entries ready,
      ensureChecklistBeforeCompletion args ctx s = (s', (entries, ready)) ∧
      (ready = false → ∃ e, entries = [e]) := by
  unfold ensureChecklistBeforeCompletion
  rcases hget : svcGetOrder args.orderId s with ⟨s1, r⟩
  cases r with
  | error e => exact ⟨_, _, _, rfl, fun _ => ⟨_, rfl⟩⟩
  | ok order =>
    dsimp only
    rcases hfind : order.stages.find? (fun st => st.stage == args.stage) with _ | st
    · rw [hfind]
      exact ⟨_, _, _, rfl, fun _ => ⟨_, rfl⟩⟩
    · rw [hfind]
      dsimp only
      by_cases hlen : (st.checklist.filter (fun t => t.required && !t.completed)).length = 0
      · rw [if_pos hlen]
        exact ⟨_, _, _, rfl, by simp⟩
      · rw [if_neg hlen]
        by_cases hrole : ctx.roles.contains Role.OPERATOR = false
        · rw [if_pos hrole]
          exact ⟨_, _, _, rfl, fun _ => ⟨_, rfl⟩⟩
        · rw [if_neg hrole]
          rcases hlook : findAction "update_stage_checklist" with _ | updateAction
          · exact ⟨_, _, _, rfl, fun _ => ⟨_, rfl⟩⟩
          · dsimp only
            rcases hrun : updateAction.handler
                (.updateStageChecklist
                  { orderId := args.orderId, stage := args.stage,
                    tasks := (st.checklist.filter (fun t => t.required && !t.completed)).map
                      (fun t => { taskId := t.id, completed := true }) }) ctx s1 with ⟨s2, r2⟩
            try rw [hrun]
            try dsimp only
            cases r2 with
            | error e => exact ⟨_, _, _, rfl, fun _ => ⟨_, rfl⟩⟩
            | ok updateResult =>
              try dsimp only
              by_cases hst : updateResult.status ≠ ResultStatus.success
              · rw [if_pos hst]
                exact ⟨_, _, _, rfl, fun _ => ⟨_, rfl⟩⟩
              · rw [if_neg hst]
                exact ⟨_, _, _, rfl, fun _ => ⟨_, rfl⟩⟩

theorem ensureChecklist_not_ready {args : CompleteStageArgs} {ctx : ExecutionContext}
    {s : RefState} (h : (ensureChecklistBeforeCompletion args ctx s).2.2 = false) :
    ∃ e, (ensureChecklistBeforeCompletion args ctx s).2.1 = [e] := by
  obtain ⟨s', entries, ready, heq, himp⟩ := ensureChecklist_shape args ctx s
  rw [heq] at h ⊢
  exact himp h

theorem completionGate_shape (d : ActionDefinition) (p : ActionArgs)
    (ctx : ExecutionContext) (s : RefState) :
    ∃ s' entries ready, completionGate d p ctx s = (s', (entries, ready)) ∧
      (ready = false → ∃ e, entries = [e]) := by
  unfold completionGate
  by_cases hn : d.name = "complete_stage"
  · rw [if_pos hn]
    cases p
    all_goals first
      | (exact ensureChecklist_shape _ ctx s)
      | exact ⟨_, _, _, rfl, by simp⟩
  · rw [if_neg hn]
    exact ⟨_, _, _, rfl, by simp⟩

theorem completionGate_not_ready {d : ActionDefinition} {p : ActionArgs}
    {ctx : ExecutionContext} {s : RefState}
    (h : (completionGate d p ctx s).2.2 = false) :
    ∃ e, (completionGate d p ctx s).2.1 = [e] := by
  obtain ⟨s1, entries, ready, heq, himp⟩ := completionGate_shape d p ctx s
  rw [heq] at h ⊢
  exact himp h

theorem execAction_log_length (a : PlannedAction) (ctx : ExecutionContext) (s : RefState) :
    1 ≤ (execAction a ctx s).2.length := by
  unfold execAction
  rcases hfa : findAction a.name with _ | d
  · try rw [hfa]
    simp
  · try rw [hfa]
    try dsimp only
    rcases hp : d.parse a.arguments with e | parsedArgs
    · try rw [hp]
      simp
    · try rw [hp]
      try dsimp only
      obtain ⟨s1, entries, ready, hgate, himp⟩ := completionGate_shape d parsedArgs ctx s
      rw [hgate]
      dsimp only
      by_cases hr : ready = false
      · rw [if_pos hr]
        obtain ⟨e, he⟩ := himp hr
        simp [he]
      · rw [if_neg hr]
        unfold invokeHandler
        rcases hh : d.handler parsedArgs ctx s1 with ⟨s2, r⟩
        try rw [hh]
        cases r <;> simp

theorem setStage_id (o : OrderResponse) (stage : StageType) (st : OrderStageStatus) :
    (setStage o stage st).id = o.id := rfl

theorem patchTask_stage (tid : String) (b : Bool) (st : OrderStageStatus) :
    (patchTask tid b st).stage = st.stage := rfl

theorem applyTasksChecklist_cons (t : ChecklistTaskArg) (ts : List ChecklistTaskArg)
    (cl : List ChecklistItem) :
    applyTasksChecklist (t :: ts) cl =
      applyTasksChecklist ts (cl.map (fun item =>
        if item.id == t.taskId then { item with completed := t.completed } else item)) := rfl

theorem setOrder_findOrder {s : RefState} {oid : Int} {o o' : OrderResponse}
    (hfind : s.findOrder oid = some o) (hid : o'.id = o.id) :
    (s.setOrder o').findOrder oid = some o' := by
  unfold RefState.findOrder RefState.setOrder at *
  exact find?_id_map_replace hfind hid

theorem setStage_find? {o : OrderResponse} {stage : StageType} {st st' : OrderStageStatus}
    (hst' : (st'.stage == stage) = true)
    (hfind : o.stages.find? (fun p => p.stage == stage) = some st) :
    (setStage o stage st').stages.find? (fun p => p.stage == stage) = some st' := by
  unfold setStage
  exact find?_stage_map_replace hst' hfind

theorem find?_stage_beq {l : List OrderStageStatus} {stage : StageType}
    {st : OrderStageStatus}
    (h : l.find? (fun p => p.stage == stage) = some st) : (st.stage == stage) = true := by
  simpa using List.find?_some h

theorem runChecklistTasks_all_ok {oid : Int} {stage : StageType} :
    ∀ (tasks : List ChecklistTaskArg) (last : Option OrderStageStatus) (s : RefState)
      (o : OrderResponse) (st : OrderStageStatus),
      (∀ t ∈ tasks, s.failPatch oid stage t.taskId = false) →
      s.findOrder oid = some o →
      o.stages.find? (fun p => p.stage == stage) = some st →
      ∃ s' last',
        runChecklistTasks oid stage tasks last s = (s', .ok last') ∧
        s'.trace = s.trace ++ tasks.map (patchCallOf oid stage) ∧
        s'.failPatch = s.failPatch ∧ s'.failComplete = s.failComplete ∧
        s'.failGet = s.failGet ∧
        ∃ o' st', s'.findOrder oid = some o' ∧
          o'.stages.find? (fun p => p.stage == stage) = some st' ∧
          (st'.stage == stage) = true ∧
          st'.checklist = applyTasksChecklist tasks st.checklist := by
  intro tasks
  induction tasks with
  | nil =>
    intro last s o st hfail hfind hst
    refine ⟨s, last, rfl, by simp [runChecklistTasks], rfl, rfl, rfl,
      o, st, hfind, hst, find?_stage_beq hst, rfl⟩
  | cons t rest ih =>
    intro last s o st hfail hfind hst
    have hstage : ((patchTask t.taskId t.completed st).stage == stage) = true := by
      rw [patchTask_stage]
      exact find?_stage_beq hst
    have hpatch := svcPatchChecklist_ok (b := t.completed)
      (hfail t (by simp)) hfind hst
    set s2 := (s.push (.patchChecklist oid stage t.taskId t.completed)).setOrder
      (setStage o stage (patchTask t.taskId t.completed st)) with hs2
    have hfind2 : s2.findOrder oid = some (setStage o stage (patchTask t.taskId t.completed st)) := by
      apply setOrder_findOrder _ (setStage_id _ _ _)
      rw [push_findOrder]
      exact hfind
    have hst2 : (setStage o stage (patchTask t.taskId t.completed st)).stages.find?
        (fun p => p.stage == stage) = some (patchTask t.taskId t.completed st) :=
      setStage_find? hstage hst
    have hfail2 : ∀ u ∈ rest, s2.failPatch oid stage u.taskId = false := by
      intro u hu
      have : s2.failPatch = s.failPatch := rfl
      rw [this]
      exact hfail u (by simp [hu])
    obtain ⟨s', last', hrun, htrace, hfp, hfc, hfg, o', st', hfind', hst', hstage', hcl⟩ :=
      ih (some (patchTask t.taskId t.completed st)) s2
        (setStage o stage (patchTask t.taskId t.completed st))
        (patchTask t.taskId t.completed st) hfail2 hfind2 hst2
    refine ⟨s', last', ?_, ?_, hfp, hfc, hfg, o', st', hfind', hst', hstage', ?_⟩
    · unfold runChecklistTasks
      rw [hpatch]
      exact hrun
    · rw [htrace]
      have : s2.trace = s.trace ++ [patchCallOf oid stage t] := rfl
      rw [this, List.map_cons, List.append_assoc]
      rfl
    · rw [hcl, applyTasksChecklist_cons]
      rfl

theorem runChecklistTasks_first_fail {oid : Int} {stage : StageType} :
    ∀ (tasks : List ChecklistTaskArg) (k : Nat) (last : Option OrderStageStatus)
      (s : RefState) (o : OrderResponse) (st : OrderStageStatus) (hk : k < tasks.length),
      (∀ t ∈ tasks.take k, s.failPatch oid stage t.taskId = false) →
      s.failPatch oid stage (tasks.get ⟨k, hk⟩).taskId = true →
      s.findOrder oid = some o →
      o.stages.find? (fun p => p.stage == stage) = some st →
      ∃ s', runChecklistTasks oid stage tasks last s = (s', .error "Service unavailable") ∧
        s'.trace = s.trace ++ (tasks.take (k + 1)).map (patchCallOf oid stage) ∧
        s'.failPatch = s.failPatch ∧
        ∃ o' st', s'.findOrder oid = some o' ∧
          o'.stages.find? (fun p => p.stage == stage) = some st' ∧
          st'.checklist = applyTasksChecklist (tasks.take k) st.checklist := by
  intro tasks
  induction tasks with
  | nil =>
    intro k last s o st hk
    exact absurd hk (by simp)
  | cons t rest ih =>
    intro k last s o st hk htake hfailk hfind hst
    cases k with
    | zero =>
      have hfail := @svcPatchChecklist_fail s oid stage t.taskId t.completed
        (by simpa using hfailk)
      refine ⟨s.push (.patchChecklist oid stage t.taskId t.completed), ?_, ?_, rfl,
        o, st, ?_, hst, by simp [applyTasksChecklist]⟩
      · unfold runChecklistTasks
        rw [hfail]
      · simp [push_trace, patchCallOf]
      · rw [push_findOrder]
        exact hfind
    | succ k =>
      have hstage : ((patchTask t.taskId t.completed st).stage == stage) = true := by
        rw [patchTask_stage]
        exact find?_stage_beq hst
      have hpatch := svcPatchChecklist_ok (b := t.completed)
        (htake t (by simp)) hfind hst
      set s2 := (s.push (.patchChecklist oid stage t.taskId t.completed)).setOrder
        (setStage o stage (patchTask t.taskId t.completed st)) with hs2
      have hfind2 : s2.findOrder oid =
          some (setStage o stage (patchTask t.taskId t.completed st)) := by
        apply setOrder_findOrder _ (setStage_id _ _ _)
        rw [push_findOrder]
        exact hfind
      have hst2 : (setStage o stage (patchTask t.taskId t.completed st)).stages.find?
          (fun p => p.stage == stage) = some (patchTask t.taskId t.completed st) :=
        setStage_find? hstage hst
      have hk' : k < rest.length := by simpa using hk
      have htake2 : ∀ u ∈ rest.take k, s2.failPatch oid stage u.taskId = false := by
        intro u hu
        have : s2.failPatch = s.failPatch := rfl
        rw [this]
        exact htake u (by simp [hu])
      have hfailk2 : s2.failPatch oid stage (rest.get ⟨k, hk'⟩).taskId = true := by
        have : s2.failPatch = s.failPatch := rfl
        rw [this]
        exact hfailk
      obtain ⟨s', hrun, htrace, hfp, o', st', hfind', hst', hcl⟩ :=
        ih k (some (patchTask t.taskId t.completed st)) s2
          (setStage o stage (patchTask t.taskId t.completed st))
          (patchTask t.taskId t.completed st) hk' htake2 hfailk2 hfind2 hst2
      refine ⟨s', ?_, ?_, hfp, o', st', hfind', hst', ?_⟩
      · unfold runChecklistTasks
        rw [hpatch]
        exact hrun
      · rw [htrace]
        have : s2.trace = s.trace ++ [patchCallOf oid stage t] := rfl
        rw [this, List.take_succ_cons, List.map_cons, List.append_assoc]
        rfl
      · rw [hcl, List.take_succ_cons, applyTasksChecklist_cons]
        rfl

theorem findAction_complete : findAction "complete_stage" = some completeStageAction := rfl

theorem findAction_update :
    findAction "update_stage_checklist" = some updateStageChecklistAction := rfl

theorem completionGate_complete (args : CompleteStageArgs) (ctx : ExecutionContext)
    (s : RefState) :
    completionGate completeStageAction (.completeStage args) ctx s =
      ensureChecklistBeforeCompletion args ctx s := rfl

theorem completeAction_parse (j : JValue) :
    completeStageAction.parse j = (parseCompleteStage j).map .completeStage := rfl

theorem completeAction_handler (args : CompleteStageArgs) (ctx : ExecutionContext)
    (s : RefState) :
    completeStageAction.handler (.completeStage args) ctx s =
      completeStageHandler args ctx s := rfl

theorem updateAction_handler (u : UpdateChecklistArgs) (ctx : ExecutionContext)
    (s : RefState) :
    updateStageChecklistAction.handler (.updateStageChecklist u) ctx s =
      updateChecklistHandler u ctx s := rfl

theorem updateChecklistHandler_ok {a : UpdateChecklistArgs} {ctx : ExecutionContext}
    {s : RefState} {o : OrderResponse} {st : OrderStageStatus}
    (hrole : Role.OPERATOR ∈ ctx.roles)
    (hfail : ∀ t ∈ a.tasks, s.failPatch a.orderId a.stage t.taskId = false)
    (hfind : s.findOrder a.orderId = some o)
    (hst : o.stages.find? (fun p => p.stage == a.stage) = some st) :
    ∃ s' last',
      updateChecklistHandler a ctx s =
        (s', .ok { name := "update_stage_checklist", status := .success,
                   summary := "Updated " ++ toString a.tasks.length ++ " checklist task" ++
                     (if a.tasks.length = 1 then "" else "s") ++ " for stage " ++
                     stageTypeString a.stage ++ ".",
                   data := some (.stageStatusOpt last') }) ∧
      s'.trace = s.trace ++ a.tasks.map (patchCallOf a.orderId a.stage) ∧
      s'.failPatch = s.failPatch ∧ s'.failComplete = s.failComplete ∧
      s'.failGet = s.failGet ∧
      ∃ o' st', s'.findOrder a.orderId = some o' ∧
        o'.stages.find? (fun p => p.stage == a.stage) = some st' ∧
        st'.checklist = applyTasksChecklist a.tasks st.checklist := by
  obtain ⟨s', last', hrun, htrace, hfp, hfc, hfg, o', st', hfind', hst', _, hcl⟩ :=
    runChecklistTasks_all_ok a.tasks none s o st hfail hfind hst
  refine ⟨s', last', ?_, htrace, hfp, hfc, hfg, o', st', hfind', hst', hcl⟩
  unfold updateChecklistHandler
  have hc := contains_true_of_mem hrole
  rw [if_neg (by simp [hc, hrole]), hrun]

theorem updateChecklistHandler_fail {a : UpdateChecklistArgs} {ctx : ExecutionContext}
    {s : RefState} {o : OrderResponse} {st : OrderStageStatus} {k : Nat}
    (hk : k < a.tasks.length)
    (hrole : Role.OPERATOR ∈ ctx.roles)
    (htake : ∀ t ∈ a.tasks.take k, s.failPatch a.orderId a.stage t.taskId = false)
    (hfailk : s.failPatch a.orderId a.stage (a.tasks.get ⟨k, hk⟩).taskId = true)
    (hfind : s.findOrder a.orderId = some o)
    (hst : o.stages.find? (fun p => p.stage == a.stage) = some st) :
    ∃ s', updateChecklistHandler a ctx s = (s', .error "Service unavailable") ∧
      s'.trace = s.trace ++ (a.tasks.take (k + 1)).map (patchCallOf a.orderId a.stage) ∧
      ∃ o' st', s'.findOrder a.orderId = some o' ∧
        o'.stages.find? (fun p => p.stage == a.stage) = some st' ∧
        st'.checklist = applyTasksChecklist (a.tasks.take k) st.checklist := by
  obtain ⟨s', hrun, htrace, hfp, o', st', hfind', hst', hcl⟩ :=
    runChecklistTasks_first_fail a.tasks k none s o st hk htake hfailk hfind hst
  refine ⟨s', ?_, htrace, o', st', hfind', hst', hcl⟩
  unfold updateChecklistHandler
  have hc := contains_true_of_mem hrole
  rw [if_neg (by simp [hc, hrole]), hrun]

theorem completeInvoke_shape {args : CompleteStageArgs} {ctx : ExecutionContext}
    {s : RefState} {o : OrderResponse} {st : OrderStageStatus}
    (entries : List AgentActionResult)
    (hfind : s.findOrder args.orderId = some o)
    (hst : o.stages.find? (fun p => p.stage == args.stage) = some st) :
    ∃ r s', invokeHandler completeStageAction "complete_stage" (.completeStage args)
        entries ctx s = (s', entries ++ [r]) ∧ r.name = "complete_stage" ∧
      s'.trace = s.trace ++ [.completeStage args.orderId args.stage ctx.username
        (match args.serviceTimeMinutes with | some v => v | none => 30) args.notes] := by
  unfold invokeHandler
  rw [completeAction_handler]
  unfold completeStageHandler
  dsimp only
  by_cases hfc : s.failComplete args.orderId args.stage = true
  · rw [svcCompleteStage_fail hfc]
    exact ⟨_, _, rfl, rfl, push_trace _ _⟩
  · rw [svcCompleteStage_ok (by simpa using hfc) hfind hst]
    exact ⟨_, _, rfl, rfl, push_trace _ _⟩

theorem ensureChecklist_operator_ok {args : CompleteStageArgs} {ctx : ExecutionContext}
    {s : RefState} {o : OrderResponse} {st : OrderStageStatus}
    (hrole : Role.OPERATOR ∈ ctx.roles)
    (hfailGet : s.failGet args.orderId = false)
    (hfind : s.findOrder args.orderId = some o)
    (hst : o.stages.find? (fun p => p.stage == args.stage) = some st)
    (hpending : (st.checklist.filter (fun t => t.required && !t.completed)).length ≠ 0)
    (hfailPatch : ∀ t ∈ st.checklist.filter (fun t => t.required && !t.completed),
      s.failPatch args.orderId args.stage t.id = false) :
    ∃ s' last',
      ensureChecklistBeforeCompletion args ctx s =
        (s', ([{ name := "update_stage_checklist", status := .success,
                 summary := "Updated " ++
                   toString (st.checklist.filter (fun t => t.required && !t.completed)).length ++
                   " checklist task" ++
                   (if (st.checklist.filter (fun t => t.required && !t.completed)).length = 1
                    then "" else "s") ++ " for stage " ++ stageTypeString args.stage ++ ".",
                 data := some (.stageStatusOpt last') }], true)) ∧
      s'.trace = s.trace ++ [.getOrder args.orderId] ++
        (st.checklist.filter (fun t => t.required && !t.completed)).map
          (fun t => .patchChecklist args.orderId args.stage t.id true) ∧
      s'.failComplete = s.failComplete ∧
      ∃ o' st', s'.findOrder args.orderId = some o' ∧
        o'.stages.find? (fun p => p.stage == args.stage) = some st' := by
  unfold ensureChecklistBeforeCompletion
  rw [svcGetOrder_ok hfailGet hfind]
  dsimp only
  rw [hst]
  dsimp only
  have hc := contains_true_of_mem hrole
  rw [if_neg hpending, if_neg (by simp [hc, hrole]), findAction_update]
  dsimp only
  rw [updateAction_handler]
  have hfail2 : ∀ t ∈ (st.checklist.filter (fun t => t.required && !t.completed)).map
      (fun t => ChecklistTaskArg.mk t.id true),
      (s.push (.getOrder args.orderId)).failPatch args.orderId args.stage t.taskId = false := by
    intro t ht
    obtain ⟨u, hu, rfl⟩ := List.mem_map.mp ht
    exact hfailPatch u hu
  have hfind2 : (s.push (.getOrder args.orderId)).findOrder args.orderId = some o := by
    rw [push_findOrder]; exact hfind
  obtain ⟨s', last', hrun, htrace, hfp, hfc, hfg, o', st', hfind', hst', hcl⟩ :=
    updateChecklistHandler_ok
      (a := ⟨args.orderId, args.stage,
        (st.checklist.filter (fun t => t.required && !t.completed)).map
          (fun t => ⟨t.id, true⟩)⟩)
      hrole hfail2 hfind2 hst
  rw [hrun]
  dsimp only
  rw [if_neg (by simp)]
  refine ⟨s', last', ?_, ?_, ?_, o', st', hfind', hst'⟩
  · simp [List.length_map]
  · rw [htrace]
    simp [push_trace, List.map_map, patchCallOf, List.append_assoc]
  · rw [hfc, push_failComplete]

theorem ensureChecklist_nonop {args : CompleteStageArgs} {ctx : ExecutionContext}
    {s : RefState} {o : OrderResponse} {st : OrderStageStatus}
    (hrole : Role.OPERATOR ∉ ctx.roles)
    (hfailGet : s.failGet args.orderId = false)
    (hfind : s.findOrder args.orderId = some o)
    (hst : o.stages.find? (fun p => p.stage == args.stage) = some st)
    (hpending : (st.checklist.filter (fun t => t.required && !t.completed)).length ≠ 0) :
    ensureChecklistBeforeCompletion args ctx s =
      (s.push (.getOrder args.orderId),
       ([{ name := "update_stage_checklist", status := .error,
           summary := "Checklist tasks are pending, but the current user is not an operator and cannot update them automatically." }],
        false)) := by
  unfold ensureChecklistBeforeCompletion
  rw [svcGetOrder_ok hfailGet hfind]
  dsimp only
  rw [hst]
  dsimp only
  rw [if_neg hpending, if_pos (contains_false_of_not_mem hrole)]

theorem executePlan_log_length (actions : List PlannedAction) (ctx : ExecutionContext)
    (s : RefState) : actions.length ≤ (executePlan actions ctx s).2.length := by
  induction actions generalizing s with
  | nil => simp [executePlan_nil]
  | cons a rest ih =>
    rw [executePlan_cons]
    simp only [List.length_cons, List.length_append]
    have := execAction_log_length a ctx s
    have := ih (execAction a ctx s).1
    omega

theorem updateAction_parse (j : JValue) :
    updateStageChecklistAction.parse j =
      (parseUpdateChecklist j).map .updateStageChecklist := rfl

theorem completionGate_update (a : UpdateChecklistArgs) (ctx : ExecutionContext)
    (s : RefState) :
    completionGate updateStageChecklistAction (.updateStageChecklist a) ctx s =
      (s, ([], true)) := rfl

/-- **C1**: for every plan containing a `complete_stage` action whose target
stage has `N > 0` required-but-incomplete checklist tasks, when the caller
holds the operator role (and the implicit update's remote calls succeed), the
executor appends the injected checklist-update result to the log immediately
before the completion attempt, and the injected update issues exactly one
patch call marking complete each of those `N` tasks and no others. -/
theorem claim_c1_checklist_injection
    (pre post : List PlannedAction) (act : PlannedAction) (ctx : ExecutionContext)
    (args : CompleteStageArgs) (s₀ s : RefState) (logPre : List AgentActionResult)
    (o : OrderResponse) (st : OrderStageStatus) (N : Nat)
    (hpre : executePlan pre ctx s₀ = (s, logPre))
    (hname : act.name = "complete_stage")
    (hparse : parseCompleteStage act.arguments = .ok args)
    (hrole : Role.OPERATOR ∈ ctx.roles)
    (hfailGet : s.failGet args.orderId = false)
    (hfind : s.findOrder args.orderId = some o)
    (hst : o.stages.find? (fun p => p.stage == args.stage) = some st)
    (hN : (st.checklist.filter (fun t => t.required && !t.completed)).length = N)
    (hpos : 0 < N)
    (hfailPatch : ∀ t ∈ st.checklist.filter (fun t => t.required && !t.completed),
      s.failPatch args.orderId args.stage t.id = false) :
    ∃ updEntry attemptEntry s',
      execAction act ctx s = (s', [updEntry, attemptEntry]) ∧
      updEntry.name = "update_stage_checklist" ∧
      updEntry.status = .success ∧
      attemptEntry.name = "complete_stage" ∧
      s'.trace = s.trace ++ [.getOrder args.orderId] ++
        (st.checklist.filter (fun t => t.required && !t.completed)).map
          (fun t => .patchChecklist args.orderId args.stage t.id true) ++
        [.completeStage args.orderId args.stage ctx.username
          (match args.serviceTimeMinutes with | some v => v | none => 30) args.notes] ∧
      executePlan (pre ++ act :: post) ctx s₀ =
        ((executePlan post ctx s').1,
         logPre ++ [updEntry, attemptEntry] ++ (executePlan post ctx s').2) := by
  obtain ⟨s₂, last', hens, htrace₂, hfc₂, o', st', hfind', hst'⟩ :=
    ensureChecklist_operator_ok hrole hfailGet hfind hst (by omega) hfailPatch
  obtain ⟨r, s₃, hinv, hrname, htrace₃⟩ :=
    @completeInvoke_shape args ctx _ _ _
      [{ name := "update_stage_checklist", status := .success,
         summary := "Updated " ++
           toString (st.checklist.filter (fun t => t.required && !t.completed)).length ++
           " checklist task" ++
           (if (st.checklist.filter (fun t => t.required && !t.completed)).length = 1
            then "" else "s") ++ " for stage " ++ stageTypeString args.stage ++ ".",
         data := some (.stageStatusOpt last') }] hfind' hst'
  have hexec : execAction act ctx s = (s₃,
      [{ name := "update_stage_checklist", status := .success,
         summary := "Updated " ++
           toString (st.checklist.filter (fun t => t.required && !t.completed)).length ++
           " checklist task" ++
           (if (st.checklist.filter (fun t => t.required && !t.completed)).length = 1
            then "" else "s") ++ " for stage " ++ stageTypeString args.stage ++ ".",
         data := some (.stageStatusOpt last') }, r]) := by
    unfold execAction
    rw [hname, findAction_complete]
    dsimp only
    rw [completeAction_parse, hparse]
    dsimp only [Except.map]
    rw [completionGate_complete, hens]
    dsimp only
    rw [if_neg (by simp), hinv]
    simp
  refine ⟨_, r, s₃, hexec, rfl, rfl, hrname, ?_, ?_⟩
  · rw [htrace₃, htrace₂]
  · rw [executePlan_append, hpre, executePlan_cons, hexec]
    simp [List.append_assoc]

/-- **C2**: for every plan containing a `complete_stage` action whose target
stage has pending required checklist tasks, when the caller lacks the
operator role, the complete-stage handler is never invoked for that action
(the only remote call made is the order fetch) and the log entry produced for
that planned action is a single error entry. -/
theorem claim_c2_nonoperator_blocked
    (pre post : List PlannedAction) (act : PlannedAction) (ctx : ExecutionContext)
    (args : CompleteStageArgs) (s₀ s : RefState) (logPre : List AgentActionResult)
    (o : OrderResponse) (st : OrderStageStatus)
    (hpre : executePlan pre ctx s₀ = (s, logPre))
    (hname : act.name = "complete_stage")
    (hparse : parseCompleteStage act.arguments = .ok args)
    (hrole : Role.OPERATOR ∉ ctx.roles)
    (hfailGet : s.failGet args.orderId = false)
    (hfind : s.findOrder args.orderId = some o)
    (hst : o.stages.find? (fun p => p.stage == args.stage) = some st)
    (hpending : (st.checklist.filter (fun t => t.required && !t.completed)).length ≠ 0) :
    ∃ errEntry,
      execAction act ctx s = (s.push (.getOrder args.orderId), [errEntry]) ∧
      errEntry.status = .error ∧
      (∀ c ∈ (s.push (.getOrder args.orderId)).trace.drop s.trace.length,
        isCompleteCall c = false) ∧
      executePlan (pre ++ act :: post) ctx s₀ =
        ((executePlan post ctx (s.push (.getOrder args.orderId))).1,
         logPre ++ [errEntry] ++
           (executePlan post ctx (s.push (.getOrder args.orderId))).2) := by
  have hens := ensureChecklist_nonop hrole hfailGet hfind hst hpending
  have hexec : execAction act ctx s = (s.push (.getOrder args.orderId),
      [{ name := "update_stage_checklist", status := .error,
         summary := "Checklist tasks are pending, but the current user is not an operator and cannot update them automatically." }]) := by
    unfold execAction
    rw [hname, findAction_complete]
    dsimp only
    rw [completeAction_parse, hparse]
    dsimp only [Except.map]
    rw [completionGate_complete, hens]
    dsimp only
    rw [if_pos rfl]
  refine ⟨_, hexec, rfl, ?_, ?_⟩
  · intro c hc
    rw [push_trace, List.drop_left] at hc
    simp only [List.mem_singleton] at hc
    subst hc
    rfl
  · rw [executePlan_append, hpre, executePlan_cons, hexec]
    simp [List.append_assoc]

/-- **C4**: for every planned action whose name is not in the action
catalogue, the executor appends exactly one error result for that action,
leaves the service state untouched, and continues with the remaining planned
actions; and no planned action sequence ever makes the executor abort — every
planned action yields at least one log entry. -/
theorem claim_c4_unknown_action :
    (∀ (pre post : List PlannedAction) (act : PlannedAction) (ctx : ExecutionContext)
       (s₀ : RefState),
      act.name ∉ ACTION_NAMES →
      executePlan (pre ++ act :: post) ctx s₀ =
        ((executePlan post ctx (executePlan pre ctx s₀).1).1,
         (executePlan pre ctx s₀).2 ++
           [{ name := act.name, status := .error,
              summary := "Action " ++ act.name ++ " is not supported by this environment." }] ++
           (executePlan post ctx (executePlan pre ctx s₀).1).2)) ∧
    ∀ (actions : List PlannedAction) (ctx : ExecutionContext) (s : RefState),
      actions.length ≤ (executePlan actions ctx s).2.length := by
  constructor
  · intro pre post act ctx s₀ hname
    have hexec : execAction act ctx (executePlan pre ctx s₀).1 =
        ((executePlan pre ctx s₀).1,
         [{ name := act.name, status := .error,
            summary := "Action " ++ act.name ++ " is not supported by this environment." }]) := by
      unfold execAction
      rw [findAction_none hname]
    rw [executePlan_append, executePlan_cons, hexec]
    simp [List.append_assoc]
  · exact executePlan_log_length

/-- **C10**: the `update_stage_checklist` handler issues one remote checklist
call per task, sequentially in list order, stopping at the first call that
fails; a failure at position `k` leaves the first `k` tasks' completion flags
already changed while the executor reports the whole action as a single error
result — the update is not atomic. -/
theorem claim_c10_checklist_not_atomic
    (act : PlannedAction) (a : UpdateChecklistArgs) (ctx : ExecutionContext)
    (s : RefState) (o : OrderResponse) (st : OrderStageStatus) (k : Nat)
    (hname : act.name = "update_stage_checklist")
    (hparse : parseUpdateChecklist act.arguments = .ok a)
    (hrole : Role.OPERATOR ∈ ctx.roles)
    (hk : k < a.tasks.length)
    (htake : ∀ t ∈ a.tasks.take k, s.failPatch a.orderId a.stage t.taskId = false)
    (hfailk : s.failPatch a.orderId a.stage (a.tasks.get ⟨k, hk⟩).taskId = true)
    (hfind : s.findOrder a.orderId = some o)
    (hst : o.stages.find? (fun p => p.stage == a.stage) = some st) :
    ∃ s' e,
      updateChecklistHandler a ctx s = (s', .error e) ∧
      s'.trace = s.trace ++ (a.tasks.take (k + 1)).map (patchCallOf a.orderId a.stage) ∧
      (∃ o' st', s'.findOrder a.orderId = some o' ∧
        o'.stages.find? (fun p => p.stage == a.stage) = some st' ∧
        st'.checklist = applyTasksChecklist (a.tasks.take k) st.checklist) ∧
      execAction act ctx s =
        (s', [{ name := act.name, status := .error,
                summary := "Failed to execute " ++ act.name ++ ".", error := some e }]) := by
  obtain ⟨s', hrun, htrace, o', st', hfind', hst', hcl⟩ :=
    updateChecklistHandler_fail hk hrole htake hfailk hfind hst
  refine ⟨s', "Service unavailable", hrun, htrace, ⟨o', st', hfind', hst', hcl⟩, ?_⟩
  unfold execAction
  rw [hname, findAction_update]
  dsimp only
  rw [updateAction_parse, hparse]
  dsimp only [Except.map]
  rw [completionGate_update]
  dsimp only
  rw [if_neg (by simp)]
  unfold invokeHandler
  rw [updateAction_handler, hrun]
  rfl

theorem claim_c1_checklist_injection_witness :
    ∃ updEntry attemptEntry s',
      execAction sampleCompleteAction opCtx (plainState [sampleOrder]) =
        (s', [updEntry, attemptEntry]) ∧
      updEntry.name = "update_stage_checklist" ∧
      updEntry.status = .success ∧
      attemptEntry.name = "complete_stage" ∧
      s'.trace = (plainState [sampleOrder]).trace ++ [.getOrder 9] ++
        (sampleStage.checklist.filter (fun t => t.required && !t.completed)).map
          (fun t => .patchChecklist 9 .ASSEMBLY t.id true) ++
        [.completeStage 9 .ASSEMBLY opCtx.username 30 none] ∧
      executePlan ([] ++ sampleCompleteAction :: []) opCtx (plainState [sampleOrder]) =
        ((executePlan [] opCtx s').1,
         [] ++ [updEntry, attemptEntry] ++ (executePlan [] opCtx s').2) :=
  claim_c1_checklist_injection [] [] sampleCompleteAction opCtx
    ⟨9, .ASSEMBLY, none, none⟩ (plainState [sampleOrder]) (plainState [sampleOrder]) []
    sampleOrder sampleStage 2 rfl rfl rfl (by decide) rfl rfl rfl rfl (by decide)
    (fun t _ => rfl)

theorem claim_c2_nonoperator_blocked_witness :
    ∃ errEntry,
      execAction sampleCompleteAction supCtx (plainState [sampleOrder]) =
        ((plainState [sampleOrder]).push (.getOrder 9), [errEntry]) ∧
      errEntry.status = .error ∧
      (∀ c ∈ ((plainState [sampleOrder]).push (.getOrder 9)).trace.drop
          (plainState [sampleOrder]).trace.length, isCompleteCall c = false) ∧
      executePlan ([] ++ sampleCompleteAction :: []) supCtx (plainState [sampleOrder]) =
        ((executePlan [] supCtx ((plainState [sampleOrder]).push (.getOrder 9))).1,
         [] ++ [errEntry] ++
           (executePlan [] supCtx ((plainState [sampleOrder]).push (.getOrder 9))).2) :=
  claim_c2_nonoperator_blocked [] [] sampleCompleteAction supCtx
    ⟨9, .ASSEMBLY, none, none⟩ (plainState [sampleOrder]) (plainState [sampleOrder]) []
    sampleOrder sampleStage rfl rfl rfl (by decide) rfl rfl rfl (by decide)

theorem claim_c4_unknown_action_witness :
    executePlan ([] ++ PlannedAction.mk "mystery_action" none (.obj []) :: [])
        opCtx (plainState []) =
      ((executePlan [] opCtx (executePlan [] opCtx (plainState [])).1).1,
       (executePlan [] opCtx (plainState [])).2 ++
         [{ name := "mystery_action", status := .error,
            summary := "Action " ++ "mystery_action" ++
              " is not supported by this environment." }] ++
         (executePlan [] opCtx (executePlan [] opCtx (plainState [])).1).2) ∧
    ([] : List PlannedAction).length ≤ (executePlan [] opCtx (plainState [])).2.length :=
  ⟨claim_c4_unknown_action.1 [] [] (PlannedAction.mk "mystery_action" none (.obj []))
      opCtx (plainState []) (by decide),
   claim_c4_unknown_action.2 [] opCtx (plainState [])⟩

theorem claim_c10_checklist_not_atomic_witness :
    ∃ s' e,
      updateChecklistHandler ⟨9, .ASSEMBLY, [⟨"t1", true⟩, ⟨"t4", true⟩]⟩ opCtx
        patchT4FailState = (s', .error e) ∧
      s'.trace = patchT4FailState.trace ++
        (([⟨"t1", true⟩, ⟨"t4", true⟩] : List ChecklistTaskArg).take 2).map
          (patchCallOf 9 .ASSEMBLY) ∧
      (∃ o' st', s'.findOrder 9 = some o' ∧
        o'.stages.find? (fun p => p.stage == StageType.ASSEMBLY) = some st' ∧
        st'.checklist = applyTasksChecklist
          (([⟨"t1", true⟩, ⟨"t4", true⟩] : List ChecklistTaskArg).take 1)
          sampleStage.checklist) ∧
      execAction sampleUpdateAction opCtx patchT4FailState =
        (s', [{ name := sampleUpdateAction.name, status := .error,
                summary := "Failed to execute " ++ sampleUpdateAction.name ++ ".",
                error := some e }]) :=
  claim_c10_checklist_not_atomic sampleUpdateAction
    ⟨9, .ASSEMBLY, [⟨"t1", true⟩, ⟨"t4", true⟩]⟩ opCtx patchT4FailState
    sampleOrder sampleStage 1 rfl rfl (by decide) (by decide) (by decide) (by decide)
    rfl rfl

/-- Counterexample to C3 as stated: over the sample order with every
checklist `PATCH` failing, the implicit checklist update is executed (the
patch call is in the trace) and does not report success, yet the terminal
error entry for the planned `complete_stage` action is named
`update_stage_checklist` — no result named for the original complete-stage
action is ever appended. -/
theorem claim_c3_counterexample :
    (executePlan [sampleCompleteAction] opCtx patchFailState).2.map
        (fun r => r.name) = ["update_stage_checklist"] ∧
    (executePlan [sampleCompleteAction] opCtx patchFailState).2.map
        (fun r => r.status) = [.error] ∧
    (executePlan [sampleCompleteAction] opCtx patchFailState).1.trace =
      [.getOrder 9, .patchChecklist 9 .ASSEMBLY "t1" true] ∧
    ∀ r ∈ (executePlan [sampleCompleteAction] opCtx patchFailState).2,
      r.name ≠ "complete_stage" := by
  refine ⟨rfl, rfl, rfl, ?_⟩
  decide

theorem ensureChecklist_update_throws {args : CompleteStageArgs} {ctx : ExecutionContext}
    {s : RefState} {o : OrderResponse} {st : OrderStageStatus} {k : Nat}
    (hrole : Role.OPERATOR ∈ ctx.roles)
    (hfailGet : s.failGet args.orderId = false)
    (hfind : s.findOrder args.orderId = some o)
    (hst : o.stages.find? (fun p => p.stage == args.stage) = some st)
    (hk : k < (st.checklist.filter (fun t => t.required && !t.completed)).length)
    (htake : ∀ t ∈ (st.checklist.filter (fun t => t.required && !t.completed)).take k,
      s.failPatch args.orderId args.stage t.id = false)
    (hfailk : s.failPatch args.orderId args.stage
      ((st.checklist.filter (fun t => t.required && !t.completed)).get ⟨k, hk⟩).id = true) :
    ∃ s', ensureChecklistBeforeCompletion args ctx s =
      (s', ([{ name := "update_stage_checklist", status := .error,
               summary := "Failed to evaluate or update checklist tasks before completion.",
               error := some "Service unavailable" }], false)) ∧
      (∀ c ∈ s'.trace.drop s.trace.length, isCompleteCall c = false) := by
  unfold ensureChecklistBeforeCompletion
  rw [svcGetOrder_ok hfailGet hfind]
  dsimp only
  rw [hst]
  dsimp only
  have hc := contains_true_of_mem hrole
  rw [if_neg (by omega), if_neg (by simp [hc, hrole]), findAction_update]
  dsimp only
  rw [updateAction_handler]
  have hk' : k < ((st.checklist.filter (fun t => t.required && !t.completed)).map
      (fun t => ChecklistTaskArg.mk t.id true)).length := by simpa using hk
  have htake' : ∀ t ∈ ((st.checklist.filter (fun t => t.required && !t.completed)).map
      (fun t => ChecklistTaskArg.mk t.id true)).take k,
      (s.push (.getOrder args.orderId)).failPatch args.orderId args.stage t.taskId = false := by
    intro t ht
    rw [← List.map_take] at ht
    obtain ⟨u, hu, rfl⟩ := List.mem_map.mp ht
    exact htake u hu
  have hfailk' : (s.push (.getOrder args.orderId)).failPatch args.orderId args.stage
      (((st.checklist.filter (fun t => t.required && !t.completed)).map
        (fun t => ChecklistTaskArg.mk t.id true)).get ⟨k, hk'⟩).taskId = true := by
    have : ((st.checklist.filter (fun t => t.required && !t.completed)).map
        (fun t => ChecklistTaskArg.mk t.id true)).get ⟨k, hk'⟩ =
        ChecklistTaskArg.mk
          ((st.checklist.filter (fun t => t.required && !t.completed)).get ⟨k, hk⟩).id
          true := by
      simp [List.get_eq_getElem, List.getElem_map]
    rw [this]
    exact hfailk
  have hfind' : (s.push (.getOrder args.orderId)).findOrder args.orderId = some o := by
    rw [push_findOrder]; exact hfind
  obtain ⟨s', hrun, htrace, o', st', hfind'', hst'', hcl⟩ :=
    updateChecklistHandler_fail
      (a := ⟨args.orderId, args.stage,
        (st.checklist.filter (fun t => t.required && !t.completed)).map
          (fun t => ⟨t.id, true⟩)⟩)
      hk' hrole htake' hfailk' hfind' hst
  rw [hrun]
  refine ⟨s', rfl, ?_⟩
  intro c hc2
  rw [htrace, push_trace, List.append_assoc, List.drop_left] at hc2
  rcases List.mem_append.mp hc2 with h1 | h2
  · simp only [List.mem_singleton] at h1
    subst h1
    rfl
  · obtain ⟨t, _, rfl⟩ := List.mem_map.mp h2
    rfl

/-- **C3 (amended)**: when the synthesized implicit checklist-update action is
executed and fails (its remote call throws), the executor records the failure
as a single terminal error entry named for the checklist-update action — not
for the original complete-stage action — and the complete-stage handler is
never invoked (no completion call is issued). -/
theorem claim_c3_update_failure_terminal
    (pre post : List PlannedAction) (act : PlannedAction) (ctx : ExecutionContext)
    (args : CompleteStageArgs) (s₀ s : RefState) (logPre : List AgentActionResult)
    (o : OrderResponse) (st : OrderStageStatus) (k : Nat)
    (hpre : executePlan pre ctx s₀ = (s, logPre))
    (hname : act.name = "complete_stage")
    (hparse : parseCompleteStage act.arguments = .ok args)
    (hrole : Role.OPERATOR ∈ ctx.roles)
    (hfailGet : s.failGet args.orderId = false)
    (hfind : s.findOrder args.orderId = some o)
    (hst : o.stages.find? (fun p => p.stage == args.stage) = some st)
    (hk : k < (st.checklist.filter (fun t => t.required && !t.completed)).length)
    (htake : ∀ t ∈ (st.checklist.filter (fun t => t.required && !t.completed)).take k,
      s.failPatch args.orderId args.stage t.id = false)
    (hfailk : s.failPatch args.orderId args.stage
      ((st.checklist.filter (fun t => t.required && !t.completed)).get ⟨k, hk⟩).id = true) :
    ∃ errEntry s',
      execAction act ctx s = (s', [errEntry]) ∧
      errEntry.name = "update_stage_checklist" ∧
      errEntry.status = .error ∧
      (∀ c ∈ s'.trace.drop s.trace.length, isCompleteCall c = false) ∧
      executePlan (pre ++ act :: post) ctx s₀ =
        ((executePlan post ctx s').1,
         logPre ++ [errEntry] ++ (executePlan post ctx s').2) := by
  obtain ⟨s', hens, hnocomplete⟩ :=
    ensureChecklist_update_throws hrole hfailGet hfind hst hk htake hfailk
  have hexec : execAction act ctx s = (s',
      [{ name := "update_stage_checklist", status := .error,
         summary := "Failed to evaluate or update checklist tasks before completion.",
         error := some "Service unavailable" }]) := by
    unfold execAction
    rw [hname, findAction_complete]
    dsimp only
    rw [completeAction_parse, hparse]
    dsimp only [Except.map]
    rw [completionGate_complete, hens]
    dsimp only
    rw [if_pos rfl]
  refine ⟨_, s', hexec, rfl, rfl, hnocomplete, ?_⟩
  rw [executePlan_append, hpre, executePlan_cons, hexec]
  simp [List.append_assoc]

theorem claim_c3_update_failure_terminal_witness :
    ∃ errEntry s',
      execAction sampleCompleteAction opCtx patchFailState = (s', [errEntry]) ∧
      errEntry.name = "update_stage_checklist" ∧
      errEntry.status = .error ∧
      (∀ c ∈ s'.trace.drop patchFailState.trace.length, isCompleteCall c = false) ∧
      executePlan ([] ++ sampleCompleteAction :: []) opCtx patchFailState =
        ((executePlan [] opCtx s').1,
         [] ++ [errEntry] ++ (executePlan [] opCtx s').2) :=
  claim_c3_update_failure_terminal [] [] sampleCompleteAction opCtx
    ⟨9, .ASSEMBLY, none, none⟩ patchFailState patchFailState [] sampleOrder sampleStage 0
    rfl rfl rfl (by decide) rfl rfl rfl (by decide) (by decide) (by decide)

/-- **C5**: for every catalogued action, a bag that violates the action's
schema produces exactly one error result carrying the validation diagnostic,
with the service state untouched (so the handler is never invoked); a bag
that satisfies the schema validates to arguments that agree field-for-field
with the bag, and execution proceeds by handing exactly those validated
arguments to the gate and then the handler. -/
theorem claim_c5_argument_validation :
    ∀ d ∈ ACTION_LIST, ∀ (act : PlannedAction) (ctx : ExecutionContext) (s : RefState),
      act.name = d.name →
      (∀ e, d.parse act.arguments = .error e →
        execAction act ctx s =
          (s, [{ name := act.name, status := .error,
                 summary := "Invalid arguments supplied for " ++ act.name ++ ".",
                 error := some e }])) ∧
      (∀ a, d.parse act.arguments = .ok a →
        argsFieldFaithful act.arguments a ∧
        execAction act ctx s =
          (if (completionGate d a ctx s).2.2 = false
           then ((completionGate d a ctx s).1, (completionGate d a ctx s).2.1)
           else invokeHandler d act.name a (completionGate d a ctx s).2.1 ctx
             (completionGate d a ctx s).1)) := by
  intro d hd act ctx s hname
  have hfa : findAction act.name = some d := by
    rw [hname]
    exact findAction_mem d hd
  constructor
  · intro e he
    unfold execAction
    rw [hfa]
    dsimp only
    rw [he]
  · intro a ha
    constructor
    · fin_cases hd <;>
        · obtain ⟨a', ha', rfl⟩ := except_map_ok ha
          first
          | exact parseListOrders_faithful ha'
          | exact parseGetOrderDetails_faithful ha'
          | exact parseListChecklist_faithful ha'
          | exact parseCreateOrder_faithful ha'
          | exact parseUpdatePriority_faithful ha'
          | exact parseClaimStage_faithful ha'
          | exact parseUpdateChecklist_faithful ha'
          | exact parseCompleteStage_faithful ha'
          | exact parseFlagException_faithful ha'
          | exact parseApproveSkip_faithful ha'
    · unfold execAction
      rw [hfa]
      dsimp only
      rw [ha]

theorem claim_c5_argument_validation_witness :
    (execAction (PlannedAction.mk "complete_stage" none (.obj [])) opCtx (plainState []) =
      (plainState [],
       [{ name := "complete_stage", status := .error,
          summary := "Invalid arguments supplied for " ++ "complete_stage" ++ ".",
          error := some "orderId: Required" }])) ∧
    argsFieldFaithful sampleCompleteAction.arguments
      (.completeStage ⟨9, .ASSEMBLY, none, none⟩) := by
  have h := claim_c5_argument_validation completeStageAction
    (by simp [ACTION_LIST]) (PlannedAction.mk "complete_stage" none (.obj []))
    opCtx (plainState []) rfl
  have h2 := claim_c5_argument_validation completeStageAction
    (by simp [ACTION_LIST]) sampleCompleteAction opCtx (plainState []) rfl
  exact ⟨h.1 "orderId: Required" rfl, (h2.2 (.completeStage ⟨9, .ASSEMBLY, none, none⟩) rfl).1⟩

theorem fenceOpenAt_of_tag {tag rest : List Char} (htag : IsJsonTag tag) :
    fenceOpenAt ([tick, tick, tick] ++ tag ++ rest) = true := by
  unfold IsJsonTag at htag
  rcases tag with _ | ⟨a, _ | ⟨b, _ | ⟨c, _ | ⟨d, _ | _⟩⟩⟩⟩ <;> simp_all [fenceOpenAt]

theorem findClose_isSome (body post : List Char) :
    ∃ r, findClose (body ++ [tick, tick, tick] ++ post) = some r := by
  induction body with
  | nil => exact ⟨[], by simp [findClose, ticksAt]⟩
  | cons c rest ih =>
    obtain ⟨r, hr⟩ := ih
    by_cases h : ticksAt ((c :: rest) ++ [tick, tick, tick] ++ post) = true
    · refine ⟨[], ?_⟩
      show findClose ((c :: rest) ++ [tick, tick, tick] ++ post) = some []
      unfold findClose
      simp only [List.cons_append] at h ⊢
      rw [if_pos h]
    · refine ⟨c :: r, ?_⟩
      show findClose ((c :: rest) ++ [tick, tick, tick] ++ post) = some (c :: r)
      unfold findClose
      simp only [List.cons_append] at h ⊢
      rw [if_neg h]
      have hr' : findClose (rest ++ [tick, tick, tick] ++ post) = some r := hr
      simp only [List.append_assoc] at hr' ⊢
      rw [hr']
      rfl

theorem findClose_decomp : ∀ {cs body : List Char}, findClose cs = some body →
    ∃ post, cs = body ++ [tick, tick, tick] ++ post := by
  intro cs
  induction cs with
  | nil => intro body h; simp [findClose] at h
  | cons c rest ih =>
    intro body h
    unfold findClose at h
    split at h
    · injection h with h
      subst h
      rename_i ht
      rcases rest with _ | ⟨b, _ | ⟨d, rest'⟩⟩ <;>
        simp only [ticksAt, Bool.and_eq_true, beq_iff_eq, Bool.false_eq_true] at ht
      obtain ⟨⟨h1, h2⟩, h3⟩ := ht
      exact ⟨rest', by simp [h1, h2, h3]⟩
    · rw [Option.map_eq_some'] at h
      obtain ⟨body', hb', rfl⟩ := h
      obtain ⟨post, hpost⟩ := ih hb'
      exact ⟨post, by simp [hpost]⟩

theorem findFence_decomp : ∀ {cs body : List Char}, findFence cs = some body →
    ∃ pre tag post, IsJsonTag tag ∧
      cs = pre ++ [tick, tick, tick] ++ tag ++ body ++ [tick, tick, tick] ++ post := by
  intro cs
  induction cs with
  | nil => intro body h; simp [findFence] at h
  | cons c rest ih =>
    intro body h
    unfold findFence at h
    split at h
    · rename_i hopen
      split at h
      · rename_i body' hclose
        injection h with h
        subst h
        rcases rest with _ | ⟨c2, _ | ⟨c3, _ | ⟨d, _ | ⟨e, _ | ⟨f, _ | ⟨g, tail⟩⟩⟩⟩⟩⟩ <;>
          simp only [fenceOpenAt, Bool.and_eq_true, beq_iff_eq, Bool.false_eq_true] at hopen
        obtain ⟨⟨⟨⟨⟨⟨h1, h2⟩, h3⟩, h4⟩, h5⟩, h6⟩, h7⟩ := hopen
        simp only [List.drop_succ_cons, List.drop_zero] at hclose
        obtain ⟨post, hpost⟩ := findClose_decomp hclose
        refine ⟨[], [d, e, f, g], post, by simp [IsJsonTag, h4, h5, h6, h7], ?_⟩
        simp [h1, h2, h3, hpost]
      · obtain ⟨pre, tag, post, htag, heq⟩ := ih h
        exact ⟨c :: pre, tag, post, htag, by simp [heq]⟩
    · obtain ⟨pre, tag, post, htag, heq⟩ := ih h
      exact ⟨c :: pre, tag, post, htag, by simp [heq]⟩

theorem findFence_isSome {tag body post : List Char} :
    ∀ (pre : List Char), IsJsonTag tag →
    ∃ r, findFence (pre ++ [tick, tick, tick] ++ tag ++ body ++ [tick, tick, tick] ++ post) =
      some r := by
  intro pre htag
  induction pre with
  | nil =>
    obtain ⟨r, hr⟩ := findClose_isSome body post
    have hopen : fenceOpenAt ([tick, tick, tick] ++ tag ++
        (body ++ [tick, tick, tick] ++ post)) = true := fenceOpenAt_of_tag htag
    have hlen : tag.length = 4 := by
      have := congrArg List.length htag
      simpa using this
    rcases tag with _ | ⟨a, _ | ⟨b, _ | ⟨c, _ | ⟨d, _ | _⟩⟩⟩⟩ <;> simp at hlen
    refine ⟨r, ?_⟩
    show findFence (tick :: tick :: tick :: a :: b :: c :: d :: (body ++ [tick, tick, tick] ++ post)) = some r
    unfold findFence
    rw [if_pos (by simpa [List.append_assoc] using hopen)]
    simp only [List.drop_succ_cons, List.drop_zero]
    rw [show findClose (body ++ [tick, tick, tick] ++ post) = some r from hr]
  | cons c pre ih =>
    obtain ⟨r, hr⟩ := ih
    show ∃ r, findFence (c :: (pre ++ [tick, tick, tick] ++ tag ++ body ++ [tick, tick, tick] ++ post)) = some r
    by_cases hopen : fenceOpenAt (c :: (pre ++ [tick, tick, tick] ++ tag ++ body ++
        [tick, tick, tick] ++ post)) = true
    · rcases hclose : findClose ((c :: (pre ++ [tick, tick, tick] ++ tag ++ body ++
          [tick, tick, tick] ++ post)).drop 7) with _ | b
      · refine ⟨r, ?_⟩
        unfold findFence
        rw [if_pos (by simpa [List.append_assoc] using hopen)]
        rw [show findClose (List.drop 7 (c :: (pre ++ [tick, tick, tick] ++ tag ++ body ++ [tick, tick, tick] ++ post))) = none by simpa [List.append_assoc] using hclose]
        simpa [List.append_assoc] using hr
      · refine ⟨b, ?_⟩
        unfold findFence
        rw [if_pos (by simpa [List.append_assoc] using hopen)]
        rw [show findClose (List.drop 7 (c :: (pre ++ [tick, tick, tick] ++ tag ++ body ++ [tick, tick, tick] ++ post))) = some b by simpa [List.append_assoc] using hclose]
    · refine ⟨r, ?_⟩
      unfold findFence
      rw [if_neg (by simpa [List.append_assoc] using hopen)]
      simpa [List.append_assoc] using hr

theorem hasJsonFence_iff_findFence {cs : List Char} :
    HasJsonFence cs ↔ ∃ b, findFence cs = some b := by
  constructor
  · rintro ⟨pre, tag, body, post, htag, rfl⟩
    exact findFence_isSome pre htag
  · rintro ⟨b, hb⟩
    obtain ⟨pre, tag, post, htag, heq⟩ := findFence_decomp hb
    exact ⟨pre, tag, b, post, htag, heq⟩

theorem firstIndexOfChar_spec {c : Char} : ∀ {cs : List Char} {i : Nat},
    firstIndexOfChar cs c = some i →
    cs.get? i = some c ∧ ∀ k, k < i → cs.get? k ≠ some c := by
  intro cs
  induction cs with
  | nil => intro i h; simp [firstIndexOfChar] at h
  | cons x rest ih =>
    intro i h
    unfold firstIndexOfChar at h
    split at h
    · rename_i hx
      injection h with h
      subst h
      simp only [beq_iff_eq] at hx
      exact ⟨by simp [hx], by omega⟩
    · rename_i hx
      rw [Option.map_eq_some'] at h
      obtain ⟨i', hi', rfl⟩ := h
      obtain ⟨hget, hmin⟩ := ih hi'
      refine ⟨by simpa using hget, ?_⟩
      intro k hk
      cases k with
      | zero =>
        simp only [List.get?_cons_zero, ne_eq, Option.some.injEq]
        intro hxc
        exact absurd (by simp [hxc]) hx
      | succ k =>
        simp only [List.get?_cons_succ]
        exact hmin k (by omega)

theorem firstIndexOfChar_none {c : Char} : ∀ {cs : List Char},
    firstIndexOfChar cs c = none → c ∉ cs := by
  intro cs
  induction cs with
  | nil => intro _; simp
  | cons x rest ih =>
    intro h
    unfold firstIndexOfChar at h
    split at h
    · exact absurd h (by simp)
    · rename_i hx
      simp only [Option.map_eq_none'] at h
      simp only [List.mem_cons, not_or]
      exact ⟨fun hc => absurd (by simp [hc]) hx, ih h⟩

theorem lastIndexOfChar_spec {c : Char} {cs : List Char} {j : Nat}
    (h : lastIndexOfChar cs c = some j) :
    cs.get? j = some c ∧ ∀ k, j < k → cs.get? k ≠ some c := by
  unfold lastIndexOfChar at h
  split at h
  · rename_i k0 hk0
    injection h with h
    subst h
    obtain ⟨hget, hmin⟩ := firstIndexOfChar_spec hk0
    have hk0len : k0 < cs.reverse.length := by
      by_contra hge
      rw [List.get?_eq_none.mpr (by omega)] at hget
      exact Option.noConfusion hget
    rw [List.length_reverse] at hk0len
    constructor
    · rw [List.get?_eq_getElem?] at hget ⊢
      rw [List.getElem?_reverse (by simpa using hk0len)] at hget
      exact hget
    · intro k hk
      by_cases hklen : k < cs.length
      · have hidx : cs.length - 1 - k < k0 := by omega
        have := hmin (cs.length - 1 - k) hidx
        rw [List.get?_eq_getElem?, List.getElem?_reverse (by omega)] at this
        rw [show cs.length - 1 - (cs.length - 1 - k) = k from by omega] at this
        rw [List.get?_eq_getElem?]
        exact this
      · rw [List.get?_eq_none.mpr (by omega)]
        simp
  · exact Option.noConfusion h

theorem lastIndexOfChar_none {c : Char} {cs : List Char}
    (h : lastIndexOfChar cs c = none) : c ∉ cs := by
  unfold lastIndexOfChar at h
  split at h
  · exact Option.noConfusion h
  · rename_i hnone
    intro hc
    exact absurd hnone (by
      intro hn
      exact (firstIndexOfChar_none hn) (by simpa using hc))

/-- **C6**: the plan generator extracts a JSON candidate by taking the content
of a fenced code block labeled json when one is present, and otherwise the
substring from the first opening brace to the last closing brace; when
neither procedure yields valid JSON, plan generation fails with a plan-parse
error and no plan is produced. -/
theorem claim_c6_json_extraction (raw : List Char) :
    (HasJsonFence (trimChars raw) →
      ∃ body pre tag post, IsJsonTag tag ∧
        trimChars raw =
          pre ++ [tick, tick, tick] ++ tag ++ body ++ [tick, tick, tick] ++ post ∧
        extractJson raw = some (trimChars body)) ∧
    (¬ HasJsonFence (trimChars raw) →
      (∃ i j, i < j ∧
        (trimChars raw).get? i = some lbrace ∧
        (∀ k, k < i → (trimChars raw).get? k ≠ some lbrace) ∧
        (trimChars raw).get? j = some rbrace ∧
        (∀ k, j < k → (trimChars raw).get? k ≠ some rbrace) ∧
        extractJson raw = some (((trimChars raw).drop i).take (j + 1 - i))) ∨
      ((¬ ∃ i j, i < j ∧ (trimChars raw).get? i = some lbrace ∧
          (trimChars raw).get? j = some rbrace) ∧
        extractJson raw = none)) ∧
    (∀ jparse, extractJson raw = none →
      generatePlan jparse raw = .error "Agent plan was not valid JSON.") ∧
    (∀ jparse sjson, extractJson raw = some sjson → jparse sjson = none →
      ∃ msg, generatePlan jparse raw = .error msg ∧
        ∀ plan, generatePlan jparse raw ≠ .ok plan) := by
  refine ⟨?_, ?_, ?_, ?_⟩
  · intro hfence
    obtain ⟨b, hb⟩ := hasJsonFence_iff_findFence.mp hfence
    obtain ⟨pre, tag, post, htag, heq⟩ := findFence_decomp hb
    refine ⟨b, pre, tag, post, htag, heq, ?_⟩
    unfold extractJson
    dsimp only
    rw [hb]
  · intro hnof
    have hnone : findFence (trimChars raw) = none := by
      rcases hff : findFence (trimChars raw) with _ | b
      · rfl
      · exact absurd (hasJsonFence_iff_findFence.mpr ⟨b, hff⟩) hnof
    rcases hfirst : firstIndexOfChar (trimChars raw) lbrace with _ | i
    · right
      constructor
      · rintro ⟨i, j, hij, hgi, hgj⟩
        exact (firstIndexOfChar_none hfirst) (List.get?_mem hgi)
      · unfold extractJson
        dsimp only
        rw [hnone, hfirst]
    · rcases hlast : lastIndexOfChar (trimChars raw) rbrace with _ | j
      · right
        constructor
        · rintro ⟨i', j', hij', hgi', hgj'⟩
          exact (lastIndexOfChar_none hlast) (List.get?_mem hgj')
        · unfold extractJson
          dsimp only
          rw [hnone, hfirst, hlast]
      · obtain ⟨hgeti, hmini⟩ := firstIndexOfChar_spec hfirst
        obtain ⟨hgetj, hmaxj⟩ := lastIndexOfChar_spec hlast
        by_cases hle : j ≤ i
        · right
          constructor
          · rintro ⟨i', j', hij', hgi', hgj'⟩
            have hii' : i ≤ i' := by
              by_contra hlt
              exact (hmini i' (by omega)) hgi'
            have hjj' : j' ≤ j := by
              by_contra hlt
              exact (hmaxj j' (by omega)) hgj'
            omega
          · unfold extractJson
            dsimp only
            rw [hnone, hfirst, hlast]
            dsimp only
            rw [if_pos hle]
        · left
          refine ⟨i, j, by omega, hgeti, hmini, hgetj, hmaxj, ?_⟩
          unfold extractJson
          dsimp only
          rw [hnone, hfirst, hlast]
          dsimp only
          rw [if_neg hle]
  · intro jparse hnone
    unfold generatePlan
    rw [hnone]
  · intro jparse sjson hsome hjp
    unfold generatePlan
    rw [hsome]
    dsimp only
    rw [hjp]
    exact ⟨_, rfl, fun plan h => Except.noConfusion h⟩

theorem claim_c6_json_extraction_witness :
    (∃ body pre tag post, IsJsonTag tag ∧
       trimChars ("```json \x7b\x7d```").data =
         pre ++ [tick, tick, tick] ++ tag ++ body ++ [tick, tick, tick] ++ post ∧
       extractJson ("```json \x7b\x7d```").data = some (trimChars body)) ∧
    generatePlan (fun _ => none) ("no json present").data =
      .error "Agent plan was not valid JSON." := by
  constructor
  · exact (claim_c6_json_extraction _).1
      ⟨[], ['j', 's', 'o', 'n'], [' ', lbrace, rbrace], [], by rfl, by decide⟩
  · exact (claim_c6_json_extraction _).2.2.1 (fun _ => none) (by decide)

/-- **C9**: the normalized effective role set contains a role exactly when
some raw role string from the identity service normalizes (strip the `ROLE_`
tag, upper-case) to that role's name; every unrecognized role string is
silently dropped (it never contributes a role). -/
theorem claim_c9_role_normalization (roles : List String) (r : Role) :
    r ∈ normalizeRoles roles ↔ ∃ s ∈ roles, normalizeRoleName s = roleString r := by
  unfold normalizeRoles
  constructor
  · intro hr
    obtain ⟨x, hx, hfx⟩ := List.mem_filterMap.mp hr
    obtain ⟨s, hs, rfl⟩ := List.mem_map.mp hx
    refine ⟨s, hs, ?_⟩
    by_cases h1 : normalizeRoleName s = "OPERATOR"
    · rw [if_pos h1] at hfx
      injection hfx with hfx
      subst hfx
      exact h1
    · rw [if_neg h1] at hfx
      by_cases h2 : normalizeRoleName s = "SUPERVISOR"
      · rw [if_pos h2] at hfx
        injection hfx with hfx
        subst hfx
        exact h2
      · rw [if_neg h2] at hfx
        exact Option.noConfusion hfx
  · rintro ⟨s, hs, hnorm⟩
    apply List.mem_filterMap.mpr
    refine ⟨normalizeRoleName s, List.mem_map_of_mem _ hs, ?_⟩
    rw [hnorm]
    cases r
    · decide
    · decide

theorem claim_c9_role_normalization_witness :
    Role.OPERATOR ∈ normalizeRoles ["ROLE_OPERATOR", "ROLE_ADMIN"] ↔
      ∃ s ∈ ["ROLE_OPERATOR", "ROLE_ADMIN"],
        normalizeRoleName s = roleString Role.OPERATOR :=
  claim_c9_role_normalization ["ROLE_OPERATOR", "ROLE_ADMIN"] Role.OPERATOR

theorem svcListOrders_ok {s : RefState} (h : s.failList = false) :
    svcListOrders s = (s.push .listOrders, .ok s.orders) := by
  unfold svcListOrders
  dsimp only
  rw [show (s.push .listOrders).failList = s.failList from rfl, h]
  rfl

theorem svcListOrders_fail {s : RefState} (h : s.failList = true) :
    svcListOrders s = (s.push .listOrders, .error "Service unavailable") := by
  unfold svcListOrders
  dsimp only
  rw [show (s.push .listOrders).failList = s.failList from rfl, h]
  rfl

theorem orderLe_iff {a b : OrderResponse} : orderLe a b = true ↔ specOrderLe a b := by
  unfold orderLe
  rw [decide_eq_true_iff]
  unfold compareOrders specOrderLe
  dsimp only
  by_cases h : b.priority.getD 0 - a.priority.getD 0 ≠ 0
  · rw [if_pos h]
    omega
  · rw [if_neg h]
    omega

theorem orderLe_trans : ∀ (a b c : OrderResponse),
    orderLe a b = true → orderLe b c = true → orderLe a c = true := by
  intro a b c hab hbc
  rw [orderLe_iff] at *
  unfold specOrderLe at *
  omega

theorem orderLe_total : ∀ (a b : OrderResponse),
    (orderLe a b || orderLe b a) = true := by
  intro a b
  rw [Bool.or_eq_true, orderLe_iff, orderLe_iff]
  unfold specOrderLe
  omega

theorem stageLe_trans : ∀ (a b c : OrderStageStatus),
    stageLe a b = true → stageLe b c = true → stageLe a c = true := by
  intro a b c hab hbc
  unfold stageLe at *
  rw [decide_eq_true_iff] at *
  omega

theorem stageLe_spec {a b : OrderStageStatus} (h : stageLe a b = true) :
    specStageLe a b := by
  unfold stageLe at h
  unfold specStageLe
  exact of_decide_eq_true h

theorem stageLe_total : ∀ (a b : OrderStageStatus),
    (stageLe a b || stageLe b a) = true := by
  intro a b
  unfold stageLe
  rw [Bool.or_eq_true, decide_eq_true_iff, decide_eq_true_iff]
  omega

/-- **C8**: the Context Builder is deterministic — for an unchanged order set
it produces an identical digest-and-warning pair — and its ordering is as
specified: orders are sorted by priority descending then creation recency
descending (a permutation of the fetched set), the rendered list is truncated
to at most 10 entries, and within each order the stage lines follow the fixed
PREPARATION, ASSEMBLY, DELIVERY sequence. -/
theorem claim_c8_context_builder :
    (∀ s s' : RefState, s.orders = s'.orders → s.failList = s'.failList →
      (buildWorkflowContext s).2 = (buildWorkflowContext s').2) ∧
    (∀ orders : List OrderResponse,
      List.Sorted specOrderLe (orders.mergeSort orderLe) ∧
      (orders.mergeSort orderLe).Perm orders ∧
      ((orders.mergeSort orderLe).take MAX_CONTEXT_ORDERS).length =
        min orders.length 10) ∧
    (∀ o : OrderResponse,
      List.Sorted specStageLe (o.stages.mergeSort stageLe) ∧
      (o.stages.mergeSort stageLe).Perm o.stages) := by
  refine ⟨?_, ?_, ?_⟩
  · intro s s' ho hf
    by_cases hfl : s'.failList = true
    · unfold buildWorkflowContext
      rw [svcListOrders_fail (hf.trans hfl), svcListOrders_fail hfl]
    · have hfl' : s'.failList = false := by
        cases hx : s'.failList
        · rfl
        · exact absurd hx hfl
      unfold buildWorkflowContext
      rw [svcListOrders_ok (hf.trans hfl'), svcListOrders_ok hfl', ho]
      dsimp only
      by_cases hlen : s'.orders.length = 0
      · rw [if_pos hlen, if_pos hlen]
      · rw [if_neg hlen, if_neg hlen]
  · intro orders
    refine ⟨?_, List.mergeSort_perm orders orderLe, ?_⟩
    · exact (List.sorted_mergeSort orderLe_trans orderLe_total orders).imp
        (fun h => orderLe_iff.mp h)
    · rw [List.length_take, (List.mergeSort_perm orders orderLe).length_eq]
      unfold MAX_CONTEXT_ORDERS
      omega
  · intro o
    exact ⟨(List.sorted_mergeSort stageLe_trans stageLe_total o.stages).imp
        (fun h => stageLe_spec h),
      List.mergeSort_perm o.stages stageLe⟩

theorem claim_c8_context_builder_witness :
    (buildWorkflowContext (plainState [sampleOrder])).2 =
      (buildWorkflowContext ((plainState [sampleOrder]).push .listOrders)).2 ∧
    List.Sorted specOrderLe ([sampleOrder].mergeSort orderLe) ∧
    List.Sorted specStageLe (sampleOrder.stages.mergeSort stageLe) :=
  ⟨claim_c8_context_builder.1 (plainState [sampleOrder])
      ((plainState [sampleOrder]).push .listOrders) rfl rfl,
   (claim_c8_context_builder.2.1 [sampleOrder]).1,
   (claim_c8_context_builder.2.2 sampleOrder).1⟩

/-- **C7**: when the caller's normalized role set authorizes zero catalogue
actions, the plan generator is never consulted (the outcome does not depend
on the model's plan text or on `JSON.parse`), no plan is produced, the
execution log stays empty, and the final answer messages are built directly
from the context digest and the objective with the no-plan and empty-log
placeholders. -/
theorem claim_c7_zero_authorized_actions
    (stringify : AgentPlan → String) (jparse : List Char → Option JValue)
    (profile : UserProfile) (rawPlanText : List Char) (token question : String)
    (s s₁ : RefState) (digest : String) (warn : Option String)
    (hzero : ACTION_LIST.filter (fun a =>
      a.roles.any (fun r => (normalizeRoles profile.roles).contains r)) = [])
    (hctx : buildWorkflowContext s = (s₁, (digest, warn))) :
    runAgent stringify jparse profile rawPlanText token question s =
      (s₁, .ok { planRequested := false, plan := none, log := [],
                 finalMessages := buildFinalAnswerMessages stringify question digest none [],
                 contextWarning := warn }) ∧
    buildFinalAnswerMessages stringify question digest none [] =
      [ { role := .system
        , content := "You are ProduSoft\x27s workflow assistant. You MUST reflect the real execution results that were already performed. If something failed, explain why and recommend next steps. Never invent actions outside the execution log." }
      , { role := .system, content := "Operational context:\n" ++ digest }
      , { role := .system
        , content := "Agent plan:\nNo plan generated (information-only response)." }
      , { role := .system
        , content := "Execution log:\nNo autonomous actions were executed." }
      , { role := .human, content := question } ] ∧
    ∀ (jparse₂ : List Char → Option JValue) (raw₂ : List Char),
      runAgent stringify jparse₂ profile raw₂ token question s =
        runAgent stringify jparse profile rawPlanText token question s := by
  have hrun : ∀ (jp : List Char → Option JValue) (rt : List Char),
      runAgent stringify jp profile rt token question s =
        (s₁, .ok { planRequested := false, plan := none, log := [],
                   finalMessages := buildFinalAnswerMessages stringify question digest none [],
                   contextWarning := warn }) := by
    intro jp rt
    unfold runAgent
    rw [hctx]
    dsimp only
    rw [hzero]
    rw [if_neg (by simp)]
  exact ⟨hrun jparse rawPlanText, rfl,
    fun jp2 r2 => (hrun jp2 r2).trans (hrun jparse rawPlanText).symm⟩

theorem claim_c7_zero_authorized_actions_witness :
    runAgent (fun _ => "") (fun _ => none) ⟨"amara", ["ROLE_ADMIN"]⟩ [] "tok" "hello"
        (plainState []) =
      ((plainState []).push .listOrders,
       .ok { planRequested := false, plan := none, log := [],
             finalMessages := buildFinalAnswerMessages (fun _ => "") "hello"
               "No orders are currently available to the signed-in user." none [],
             contextWarning := none }) ∧
    buildFinalAnswerMessages (fun _ => "") "hello"
        "No orders are currently available to the signed-in user." none [] =
      [ { role := .system
        , content := "You are ProduSoft\x27s workflow assistant. You MUST reflect the real execution results that were already performed. If something failed, explain why and recommend next steps. Never invent actions outside the execution log." }
      , { role := .system
        , content := "Operational context:\nNo orders are currently available to the signed-in user." }
      , { role := .system
        , content := "Agent plan:\nNo plan generated (information-only response)." }
      , { role := .system
        , content := "Execution log:\nNo autonomous actions were executed." }
      , { role := .human, content := "hello" } ] ∧
    ∀ (jparse₂ : List Char → Option JValue) (raw₂ : List Char),
      runAgent (fun _ => "") jparse₂ ⟨"amara", ["ROLE_ADMIN"]⟩ raw₂ "tok" "hello"
          (plainState []) =
        runAgent (fun _ => "") (fun _ => none) ⟨"amara", ["ROLE_ADMIN"]⟩ [] "tok" "hello"
          (plainState []) :=
  claim_c7_zero_authorized_actions (fun _ => "") (fun _ => none) ⟨"amara", ["ROLE_ADMIN"]⟩
    [] "tok" "hello" (plainState []) ((plainState []).push .listOrders)
    "No orders are currently available to the signed-in user." none
    (by
      have h0 : normalizeRoles ["ROLE_ADMIN"] = [] := by decide
      simp [ACTION_LIST, listOrdersAction, getOrderDetailsAction, listStageChecklistAction,
        createOrderAction, updateOrderPriorityAction, claimStageAction,
        updateStageChecklistAction, completeStageAction, flagStageExceptionAction,
        approveStageSkipAction, h0])
    rfl

end ProduSoft
